import Mathlib

/-!
Verification development for the request scheduler in
`omniserve/core/scheduler.py` (repository mit-han-lab/omniserve).

The scheduler is embedded shallowly: every scheduler method becomes a pure
Lean function over an explicit scheduler state.  The block-space manager and
the priority policy live outside the scheduler module; the spec treats them
as external collaborators consumed through an interface, so they are
represented here by an abstract interface record (`BlockSpaceManagerIface`)
over an arbitrary manager-state type `σ` and an abstract `sort_by_priority`
function.  All theorems hold for every instantiation of that interface.

Python `assert` statements and the `RuntimeError` raised by `_swap_out`
are modelled by an error monad (`Except SchedError`); a Python exception
corresponds to an `.error` result.
-/

namespace OmniServe

/-- Sequence statuses, from `omniserve.sequence.SequenceStatus` as listed in
the spec's data model (§3). -/
inductive SequenceStatus where
  | WAITING
  | RUNNING
  | SWAPPED
  | FINISHED_STOPPED
  | FINISHED_ABORTED
  | FINISHED_IGNORED
deriving DecidableEq, Repr

/-- Modelled from the spec: a status is terminal iff it is one of the
`FINISHED_*` variants (`Sequence.is_finished` lives in `omniserve/sequence.py`,
which is outside the scheduler source). -/
def SequenceStatus.is_finished : SequenceStatus → Bool
  | FINISHED_STOPPED => true
  | FINISHED_ABORTED => true
  | FINISHED_IGNORED => true
  | _ => false

/-- A single generation stream.  `len` models `get_len()` (current token
count); the token data itself is opaque to the scheduler. -/
structure Sequence where
  seq_id : Nat
  status : SequenceStatus
  len : Nat
deriving DecidableEq, Repr

def Sequence.is_finished (s : Sequence) : Bool := s.status.is_finished

/-- A request, possibly fanning into several sequences.
`max_num_running_seqs` models the value of `get_max_num_running_seqs()`
(defined in `omniserve/sequence.py`, outside the scheduler source); the
scheduler only reads it, and nothing the scheduler does to a group's
statuses changes it, so it is carried as a plain attribute. -/
structure SequenceGroup where
  request_id : String
  seqs : List Sequence
  max_num_running_seqs : Nat
deriving DecidableEq, Repr

/-- Python `seq_group.get_seqs(status=st)`. -/
def SequenceGroup.get_seqs (g : SequenceGroup) (st : SequenceStatus) : List Sequence :=
  g.seqs.filter (fun s => s.status == st)

/-- Python `seq_group.num_seqs(status=st)`. -/
def SequenceGroup.num_seqs (g : SequenceGroup) (st : SequenceStatus) : Nat :=
  (g.get_seqs st).length

/-- Modelled from the spec: a group is finished when all its sequences are
finished (`SequenceGroup.is_finished` lives in `omniserve/sequence.py`). -/
def SequenceGroup.is_finished (g : SequenceGroup) : Bool :=
  g.seqs.all (fun s => s.is_finished)

/-- The loop `for seq in seq_group.get_seqs(status=src): seq.status = dst` —
the status-flipping loop pattern used throughout the scheduler. -/
def setStatusAll (g : SequenceGroup) (src dst : SequenceStatus) : SequenceGroup :=
  { g with seqs := g.seqs.map (fun s => if s.status == src then { s with status := dst } else s) }

/-- The enum `omniserve.core.block_manager.AllocStatus` (consumed contract, §4.1). -/
inductive AllocStatus where
  | OK
  | LATER
  | NEVER
deriving DecidableEq, Repr

/-- A Python `Dict[int, int]` of block ids, as an insertion-ordered
association list (only keys, values and emptiness matter to the claims). -/
abbrev BlockDict := List (Nat × Nat)

/-- One key/value insertion with overwrite, as in a Python dict. -/
def BlockDict.insertEntry (d : BlockDict) (k v : Nat) : BlockDict :=
  if d.any (fun p => p.1 == k) then
    d.map (fun p => if p.1 == k then (k, v) else p)
  else
    d ++ [(k, v)]

/-- Python `d.update(m)` on dicts. -/
def BlockDict.updateWith (d m : BlockDict) : BlockDict :=
  m.foldl (fun acc p => acc.insertEntry p.1 p.2) d

/-- A Python `Dict[int, List[int]]` used for copy-on-write aggregation. -/
abbrev CopyDict := List (Nat × List Nat)

/-- The aggregation step of `_append_slot`: append `dst` to the list at key
`src`, creating the singleton list if the key is absent. -/
def CopyDict.addCopy (d : CopyDict) (src dst : Nat) : CopyDict :=
  if d.any (fun p => p.1 == src) then
    d.map (fun p => if p.1 == src then (p.1, p.2 ++ [dst]) else p)
  else
    d ++ [(src, [dst])]

/-- The block-space-manager operations the scheduler consumes (§4.1 of the
spec), over an abstract manager state `σ`.  Mutating operations return the
new manager state explicitly. -/
structure BlockSpaceManagerIface (σ : Type) where
  can_allocate : σ → SequenceGroup → Bool → Option Nat → AllocStatus
  allocate : σ → SequenceGroup → Bool → Option Nat → σ
  can_append_slot : σ → SequenceGroup → Bool
  append_slot : σ → Sequence → σ × Option (Nat × Nat) × Option (Nat × Nat)
  can_swap_in : σ → SequenceGroup → Bool
  swap_in : σ → SequenceGroup → σ × BlockDict × BlockDict
  can_swap_out : σ → SequenceGroup → Bool
  swap_out : σ → SequenceGroup → σ × BlockDict × BlockDict
  free : σ → Sequence → σ

/-- The scheduler-relevant configuration fields. -/
structure SchedulerConfig where
  max_model_len : Nat
  max_num_batched_tokens : Nat
  max_num_seqs : Nat
deriving DecidableEq, Repr

/-- The immutable part of a `Scheduler` object: configuration, IFB mode,
`init_num_blocks`, the block manager's operations, and the policy's
`sort_by_priority` (the source instantiates FCFS; the spec only requires a
stable priority permutation, so it is kept abstract). -/
structure SchedEnv (σ : Type) where
  scheduler_config : SchedulerConfig
  ifb_mode : Bool
  init_num_blocks : Option Nat
  block_manager : BlockSpaceManagerIface σ
  sort_by_priority : Nat → List SequenceGroup → List SequenceGroup

/-- Source: `self.prompt_limit = min(max_model_len, max_num_batched_tokens)`. -/
def SchedEnv.prompt_limit (env : SchedEnv σ) : Nat :=
  min env.scheduler_config.max_model_len env.scheduler_config.max_num_batched_tokens

/-- The mutable part of a `Scheduler` object: the three queues (front of the
list = front of the deque) and the block-manager state. -/
structure SchedState (σ : Type) where
  waiting : List SequenceGroup
  running : List SequenceGroup
  swapped : List SequenceGroup
  bm : σ
deriving DecidableEq, Repr

/-- Source enum `PreemptionMode`. -/
inductive PreemptionMode where
  | SWAP
  | RECOMPUTE
deriving DecidableEq, Repr

/-- Python exceptions the scheduler can raise:
`waitingAssert` is the "only one prompt sequence" assert in `_schedule`;
`recomputeAssert` is the `len(seqs) == 1` assert in `_preempt_by_recompute`;
`swapSpace` is the `RuntimeError` in `_swap_out`;
`outputsSwapAssert b` are the two asserts in `SchedulerOutputs.__init__`
(`b = true` for the retrieval class, `b = false` for streaming);
`fuelExhausted` is an artifact of the bounded encoding of the append-slot
loop and is proven unreachable for the fuel `_schedule` supplies. -/
inductive SchedError where
  | waitingAssert
  | recomputeAssert
  | swapSpace
  | outputsSwapAssert (retrievalClass : Bool)
  | fuelExhausted
deriving DecidableEq, Repr

/-- The per-tick plan record. -/
structure SchedulerOutputs where
  scheduled_seq_groups : List SequenceGroup
  prompt_run : Bool
  num_batched_tokens : Nat
  retrieval_blocks_to_swap_in : BlockDict
  streaming_blocks_to_swap_in : BlockDict
  retrieval_blocks_to_swap_out : BlockDict
  streaming_blocks_to_swap_out : BlockDict
  retrieval_blocks_to_copy : CopyDict
  streaming_blocks_to_copy : CopyDict
  ignored_seq_groups : List SequenceGroup
deriving DecidableEq, Repr

/-- Constructor `SchedulerOutputs.__init__`: stores the fields but first checks the two
asserts `not (retrieval_in and retrieval_out)` and
`not (streaming_in and streaming_out)` (a Python dict is truthy iff
non-empty). -/
def SchedulerOutputs.make (scheduled : List SequenceGroup) (prompt_run : Bool)
    (num_batched_tokens : Nat) (r_in s_in r_out s_out : BlockDict)
    (r_copy s_copy : CopyDict) (ignored : List SequenceGroup) :
    Except SchedError SchedulerOutputs :=
  if !r_in.isEmpty && !r_out.isEmpty then
    .error (.outputsSwapAssert true)
  else if !s_in.isEmpty && !s_out.isEmpty then
    .error (.outputsSwapAssert false)
  else
    .ok ⟨scheduled, prompt_run, num_batched_tokens, r_in, s_in, r_out, s_out,
         r_copy, s_copy, ignored⟩

/-- Method `add_seq_group`: append to the waiting queue. -/
def add_seq_group (s : SchedState σ) (g : SequenceGroup) : SchedState σ :=
  { s with waiting := s.waiting ++ [g] }

/-- Method `has_unfinished_seqs`: `self.waiting or self.running or self.swapped`
(deque truthiness = non-emptiness). -/
def has_unfinished_seqs (s : SchedState σ) : Bool :=
  !s.waiting.isEmpty || !s.running.isEmpty || !s.swapped.isEmpty

/-- Method `get_num_unfinished_seq_groups`. -/
def get_num_unfinished_seq_groups (s : SchedState σ) : Nat :=
  s.waiting.length + s.running.length + s.swapped.length

/-- Method `free_seq`: pass-through to `block_manager.free`. -/
def free_seq (bmi : BlockSpaceManagerIface σ) (bm : σ) (s : Sequence) : σ :=
  bmi.free bm s

/-- Method `free_finished_seq_groups`: rebuild `running` keeping only the
non-finished groups. -/
def free_finished_seq_groups (s : SchedState σ) : SchedState σ :=
  { s with running := s.running.filter (fun g => !g.is_finished) }

/-- The scan phase of `abort_seq_group` over one state queue: walk the queue
collecting groups whose `request_id` is in the id set, removing matched ids
from the set, and breaking early once the set is empty. -/
def abortScan (queue : List SequenceGroup) (ids : List String) :
    List SequenceGroup × List String :=
  match queue with
  | [] => ([], ids)
  | g :: rest =>
    if ids.isEmpty then
      ([], ids)
    else if ids.contains g.request_id then
      let (ab, ids') := abortScan rest (ids.erase g.request_id)
      (g :: ab, ids')
    else
      abortScan rest ids

/-- The per-group body of `abort_seq_group`'s removal loop: for each
sequence, skip it when finished, otherwise set its status to
`FINISHED_ABORTED` and free it in the block manager (in sequence order,
interleaving the `free` calls exactly as the source does).  Returns the new
manager state and the group with its updated sequences. -/
def abortGroupStep (bmi : BlockSpaceManagerIface σ) (bm : σ) (g : SequenceGroup) :
    σ × SequenceGroup :=
  let folded := g.seqs.foldl
    (fun (acc : σ × List Sequence) sq =>
      if sq.is_finished then
        (acc.1, acc.2 ++ [sq])
      else
        let sq' := { sq with status := SequenceStatus.FINISHED_ABORTED }
        (bmi.free acc.1 sq', acc.2 ++ [sq']))
    (bm, [])
  (folded.1, { g with seqs := folded.2 })

/-- Handling by `abort_seq_group` of one state queue: scan, then remove each
collected group from the queue and abort/free its live sequences. -/
def abortQueue (bmi : BlockSpaceManagerIface σ) (bm : σ)
    (queue : List SequenceGroup) (ids : List String) :
    σ × List SequenceGroup × List String :=
  let scanned := abortScan queue ids
  let queue' := scanned.1.foldl (fun q g => q.erase g) queue
  let bm' := scanned.1.foldl (fun b g => (abortGroupStep bmi b g).1) bm
  (bm', queue', scanned.2)

/-- Method `abort_seq_group(request_id)`: the id collection is turned into a set
(`dedup`), then the waiting, running and swapped queues are processed in
that order. -/
def abort_seq_group (bmi : BlockSpaceManagerIface σ) (s : SchedState σ)
    (request_id : List String) : SchedState σ :=
  let ids := request_id.dedup
  let w := abortQueue bmi s.bm s.waiting ids
  let r := abortQueue bmi w.1 s.running w.2.2
  let sw := abortQueue bmi r.1 s.swapped r.2.2
  { waiting := w.2.1, running := r.2.1, swapped := sw.2.1, bm := sw.1 }

/-- Method `_allocate`: `block_manager.allocate(...)`, then flip every `WAITING`
sequence of the group to `RUNNING`.  Returns the new manager state and the
updated group. -/
def _allocate (env : SchedEnv σ) (bm : σ) (g : SequenceGroup) : σ × SequenceGroup :=
  let bm' := env.block_manager.allocate bm g env.ifb_mode env.init_num_blocks
  (bm', setStatusAll g .WAITING .RUNNING)

/-- Method `_append_slot`: for each `RUNNING` sequence of the group, call
`block_manager.append_slot(seq)` and aggregate each returned
retrieval/streaming copy-on-write pair into the corresponding copy map. -/
def _append_slot (env : SchedEnv σ) (bm : σ) (g : SequenceGroup)
    (r_copy s_copy : CopyDict) : σ × CopyDict × CopyDict :=
  (g.get_seqs .RUNNING).foldl
    (fun (acc : σ × CopyDict × CopyDict) sq =>
      let (bm, r_copy, s_copy) := acc
      let (bm', retrieval_ret, streaming_ret) := env.block_manager.append_slot bm sq
      let r_copy' := match retrieval_ret with
        | some (src, dst) => r_copy.addCopy src dst
        | none => r_copy
      let s_copy' := match streaming_ret with
        | some (src, dst) => s_copy.addCopy src dst
        | none => s_copy
      (bm', r_copy', s_copy'))
    (bm, r_copy, s_copy)

/-- Method `_swap_in`: merge the mappings returned by `block_manager.swap_in` into
the swap-in maps and flip every `SWAPPED` sequence to `RUNNING`. -/
def _swap_in (env : SchedEnv σ) (bm : σ) (g : SequenceGroup)
    (r_in s_in : BlockDict) : σ × BlockDict × BlockDict × SequenceGroup :=
  let (bm', retrieval_mapping, streaming_mapping) := env.block_manager.swap_in bm g
  (bm', r_in.updateWith retrieval_mapping, s_in.updateWith streaming_mapping,
   setStatusAll g .SWAPPED .RUNNING)

/-- Result of `_swap_out`.  `raised = true` records the `RuntimeError` raised
when `can_swap_out` is false; the raise is the first statement of the Python
function, so the carried manager state, maps and group are exactly the
inputs in that case. -/
structure SwapOutRes (σ : Type) where
  raised : Bool
  bm : σ
  r_out : BlockDict
  s_out : BlockDict
  group : SequenceGroup

/-- Method `_swap_out`: raise if `not can_swap_out(seq_group)`; otherwise merge the
returned mappings into the swap-out maps and flip every `RUNNING` sequence
to `SWAPPED`. -/
def _swap_out (env : SchedEnv σ) (bm : σ) (g : SequenceGroup)
    (r_out s_out : BlockDict) : SwapOutRes σ :=
  if !(env.block_manager.can_swap_out bm g) then
    ⟨true, bm, r_out, s_out, g⟩
  else
    let (bm', retrieval_mapping, streaming_mapping) := env.block_manager.swap_out bm g
    ⟨false, bm', r_out.updateWith retrieval_mapping, s_out.updateWith streaming_mapping,
     setStatusAll g .RUNNING .SWAPPED⟩

/-- Method `_preempt_by_recompute`: assert the group has exactly one `RUNNING`
sequence, flip it to `WAITING`, free it in the block manager, and push the
group to the front of the waiting queue.  Returns the manager state, the new
waiting queue, and the updated group. -/
def _preempt_by_recompute (env : SchedEnv σ) (bm : σ) (g : SequenceGroup)
    (waiting : List SequenceGroup) :
    Except SchedError (σ × List SequenceGroup × SequenceGroup) :=
  match g.get_seqs .RUNNING with
  | [sq] =>
    let g' := setStatusAll g .RUNNING .WAITING
    let bm' := env.block_manager.free bm { sq with status := .WAITING }
    .ok (bm', g' :: waiting, g')
  | _ => .error .recomputeAssert

/-- Method `_preempt_by_swap`: run `_swap_out` (propagating its `RuntimeError`), then
append the group to the back of the swapped queue. -/
def _preempt_by_swap (env : SchedEnv σ) (bm : σ) (g : SequenceGroup)
    (r_out s_out : BlockDict) (swapped : List SequenceGroup) :
    Except SchedError (σ × BlockDict × BlockDict × List SequenceGroup × SequenceGroup) :=
  let res := _swap_out env bm g r_out s_out
  if res.raised then
    .error .swapSpace
  else
    .ok (res.bm, res.r_out, res.s_out, swapped ++ [res.group], res.group)

/-- Method `_preempt`: choose the mode when unset (`RECOMPUTE` iff
`get_max_num_running_seqs() == 1`), then dispatch.  Returns the manager
state, the swap-out maps, the waiting and swapped queues, and the updated
victim group. -/
def _preempt (env : SchedEnv σ) (bm : σ) (g : SequenceGroup)
    (r_out s_out : BlockDict) (waiting swapped : List SequenceGroup)
    (preemption_mode : Option PreemptionMode) :
    Except SchedError
      (σ × BlockDict × BlockDict × List SequenceGroup × List SequenceGroup × SequenceGroup) :=
  let mode := match preemption_mode with
    | none =>
      if g.max_num_running_seqs == 1 then PreemptionMode.RECOMPUTE
      else PreemptionMode.SWAP
    | some m => m
  match mode with
  | .RECOMPUTE =>
    match _preempt_by_recompute env bm g waiting with
    | .error e => .error e
    | .ok (bm', waiting', g') => .ok (bm', r_out, s_out, waiting', swapped, g')
  | .SWAP =>
    match _preempt_by_swap env bm g r_out s_out swapped with
    | .error e => .error e
    | .ok (bm', r_out', s_out', swapped', g') =>
      .ok (bm', r_out', s_out', waiting, swapped', g')

/-- Python `sum(seq_group.get_max_num_running_seqs() for seq_group in queue)`. -/
def totalMaxNumRunningSeqs (queue : List SequenceGroup) : Nat :=
  (queue.map (fun g => g.max_num_running_seqs)).sum

/-- Accumulator of the prompt-admission loop of `_schedule`
(lines 192–266): the manager state, the running queue being extended, the
`ignored_seq_groups` and `scheduled` lists, `num_curr_seqs` and `seq_lens`. -/
structure AdmitSt (σ : Type) where
  bm : σ
  running : List SequenceGroup
  ignored : List SequenceGroup
  scheduled : List SequenceGroup
  num_curr_seqs : Nat
  seq_lens : List Nat
deriving DecidableEq, Repr

/-- Initial accumulator for the admission loop, as `_schedule` builds it:
`num_curr_seqs` is the sum of `get_max_num_running_seqs()` over `running`,
everything else starts empty. -/
def admitInit (s : SchedState σ) : AdmitSt σ :=
  ⟨s.bm, s.running, [], [], totalMaxNumRunningSeqs s.running, []⟩

/-- The `while self.waiting:` admission loop of `_schedule`.  Processes the
waiting queue from the front; returns the final accumulator together with
the remaining waiting queue (`break` leaves the current group at the
front).  The `assert len(waiting_seqs) == 1` is modelled as
`.error .waitingAssert`. -/
def admitLoop (env : SchedEnv σ) (waiting : List SequenceGroup) (st : AdmitSt σ) :
    Except SchedError (AdmitSt σ × List SequenceGroup) :=
  match waiting with
  | [] => .ok (st, [])
  | g :: rest =>
    match g.get_seqs .WAITING with
    | [ws] =>
      let num_prompt_tokens := ws.len
      if num_prompt_tokens > env.prompt_limit then
        -- too-long prompt: ignore the group and continue
        admitLoop env rest
          { st with ignored := st.ignored ++ [setStatusAll g .WAITING .FINISHED_IGNORED] }
      else
        match env.block_manager.can_allocate st.bm g env.ifb_mode env.init_num_blocks with
        | .LATER => .ok (st, g :: rest)
        | .NEVER =>
          admitLoop env rest
            { st with ignored := st.ignored ++ [setStatusAll g .WAITING .FINISHED_IGNORED] }
        | .OK =>
          let new_seq_lens := st.seq_lens ++ [num_prompt_tokens]
          let num_batched_tokens := new_seq_lens.sum
          if num_batched_tokens > env.scheduler_config.max_num_batched_tokens then
            .ok (st, g :: rest)
          else
            let num_new_seqs := g.max_num_running_seqs
            if st.num_curr_seqs + num_new_seqs > env.scheduler_config.max_num_seqs then
              .ok (st, g :: rest)
            else
              let (bm', g') := _allocate env st.bm g
              admitLoop env rest
                { bm := bm'
                  running := st.running ++ [g']
                  ignored := st.ignored
                  scheduled := st.scheduled ++ [g']
                  num_curr_seqs := st.num_curr_seqs + num_new_seqs
                  seq_lens := new_seq_lens }
    | _ => .error .waitingAssert

/-- State threaded through the append-slot/preemption phase of `_schedule`
(lines 290–310): manager state, the waiting/swapped queues (mutated by
`_preempt`), swap-out and copy maps, the new running queue being built, and
the `preempted` list. -/
structure DrainSt (σ : Type) where
  bm : σ
  waiting : List SequenceGroup
  swapped : List SequenceGroup
  r_out : BlockDict
  s_out : BlockDict
  r_copy : CopyDict
  s_copy : CopyDict
  newRunning : List SequenceGroup
  preempted : List SequenceGroup

/-- One combined encoding of the nested `while self.running:` /
`while not can_append_slot:` loops of `_schedule`.  `cur = some g` means the
outer loop has popped `g` and the inner loop is active on it; `rest` is the
current `self.running`.  Victims are popped from the back of `rest`.  The
`fuel` parameter makes the recursion structural; `_schedule` supplies
`2 * |running| + 2`, which `drain_fuel_sufficient` proves is enough, so
`.error .fuelExhausted` never occurs there. -/
def drainStep (env : SchedEnv σ) (fuel : Nat) (cur : Option SequenceGroup)
    (rest : List SequenceGroup) (st : DrainSt σ) : Except SchedError (DrainSt σ) :=
  match fuel with
  | 0 => .error .fuelExhausted
  | fuel + 1 =>
    match cur with
    | none =>
      match rest with
      | [] => .ok st
      | g :: rest' => drainStep env fuel (some g) rest' st
    | some g =>
      if env.block_manager.can_append_slot st.bm g then
        -- inner loop exits without break: append slots, keep the group
        let (bm', r_copy', s_copy') := _append_slot env st.bm g st.r_copy st.s_copy
        drainStep env fuel none rest
          { st with bm := bm', r_copy := r_copy', s_copy := s_copy',
                    newRunning := st.newRunning ++ [g] }
      else
        match rest.getLast? with
        | some victim =>
          -- preempt the lowest-priority group (back of the queue)
          match _preempt env st.bm victim st.r_out st.s_out st.waiting st.swapped none with
          | .error e => .error e
          | .ok (bm', r_out', s_out', waiting', swapped', v') =>
            drainStep env fuel (some g) rest.dropLast
              { st with bm := bm', r_out := r_out', s_out := s_out',
                        waiting := waiting', swapped := swapped',
                        preempted := st.preempted ++ [v'] }
        | none =>
          -- no other group can be preempted: preempt the current group, break
          match _preempt env st.bm g st.r_out st.s_out st.waiting st.swapped none with
          | .error e => .error e
          | .ok (bm', r_out', s_out', waiting', swapped', g') =>
            .ok { st with bm := bm', r_out := r_out', s_out := s_out',
                          waiting := waiting', swapped := swapped',
                          preempted := st.preempted ++ [g'] }

/-- Accumulator of the swap-in loop of `_schedule` (lines 321–338). -/
structure SwapSt (σ : Type) where
  bm : σ
  r_in : BlockDict
  s_in : BlockDict
  r_copy : CopyDict
  s_copy : CopyDict
  running : List SequenceGroup
  num_curr_seqs : Nat

/-- The `while self.swapped:` swap-in loop of `_schedule`: stop when the
front group cannot be swapped in or would exceed `max_num_seqs`; otherwise
pop it, `_swap_in`, `_append_slot`, and append it to the back of `running`.
Returns the final accumulator and the remaining swapped queue. -/
def swapInLoop (env : SchedEnv σ) (swappedq : List SequenceGroup) (st : SwapSt σ) :
    SwapSt σ × List SequenceGroup :=
  match swappedq with
  | [] => (st, [])
  | g :: rest =>
    if !(env.block_manager.can_swap_in st.bm g) then
      (st, g :: rest)
    else if st.num_curr_seqs + g.max_num_running_seqs >
        env.scheduler_config.max_num_seqs then
      (st, g :: rest)
    else
      let (bm', r_in', s_in', g') := _swap_in env st.bm g st.r_in st.s_in
      let (bm'', r_copy', s_copy') := _append_slot env bm' g' st.r_copy st.s_copy
      swapInLoop env rest
        { bm := bm'', r_in := r_in', s_in := s_in', r_copy := r_copy',
          s_copy := s_copy', running := st.running ++ [g'],
          num_curr_seqs := st.num_curr_seqs + g.max_num_running_seqs }

/-- The decode-continuation part of `_schedule` (lines 283–362): sort
`running`, run the append-slot/preemption phase, sort `swapped`, run the
swap-in phase only when nothing was preempted, count the batched tokens and
build the plan. -/
def decodePhase (env : SchedEnv σ) (now : Nat) (s : SchedState σ)
    (r_in s_in r_out s_out : BlockDict) (r_copy s_copy : CopyDict) :
    Except SchedError (SchedulerOutputs × SchedState σ) :=
  let sortedRunning := env.sort_by_priority now s.running
  match drainStep env (2 * sortedRunning.length + 2) none sortedRunning
      ⟨s.bm, s.waiting, s.swapped, r_out, s_out, r_copy, s_copy, [], []⟩ with
  | .error e => .error e
  | .ok dst =>
    let sortedSwapped := env.sort_by_priority now dst.swapped
    let (sst, swapped') :=
      if dst.preempted.isEmpty then
        swapInLoop env sortedSwapped
          ⟨dst.bm, r_in, s_in, dst.r_copy, dst.s_copy, dst.newRunning,
           totalMaxNumRunningSeqs dst.newRunning⟩
      else
        (⟨dst.bm, r_in, s_in, dst.r_copy, dst.s_copy, dst.newRunning,
          totalMaxNumRunningSeqs dst.newRunning⟩, sortedSwapped)
    let num_batched_tokens := (sst.running.map (fun g => g.num_seqs .RUNNING)).sum
    match SchedulerOutputs.make sst.running false num_batched_tokens
        sst.r_in sst.s_in dst.r_out dst.s_out sst.r_copy sst.s_copy [] with
    | .error e => .error e
    | .ok out => .ok (out, ⟨dst.waiting, sst.running, swapped', sst.bm⟩)

/-- Method `_schedule`: the tick.  If `swapped` is empty, run the prompt-admission
loop and, when it scheduled or ignored anything, return a prompt-run plan
(the six block-movement maps still hold their initial empty values);
otherwise fall through to the decode phase.  (The source's
`leftover_waiting_sequences` / `leftover_swapped` deques are always empty,
so their `extendleft` re-inserts are no-ops and are omitted.) -/
def _schedule (env : SchedEnv σ) (now : Nat) (s : SchedState σ) :
    Except SchedError (SchedulerOutputs × SchedState σ) :=
  let r_in : BlockDict := []
  let s_in : BlockDict := []
  let r_out : BlockDict := []
  let s_out : BlockDict := []
  let r_copy : CopyDict := []
  let s_copy : CopyDict := []
  if s.swapped.isEmpty then
    match admitLoop env s.waiting (admitInit s) with
    | .error e => .error e
    | .ok (ast, waiting') =>
      if !ast.scheduled.isEmpty || !ast.ignored.isEmpty then
        match SchedulerOutputs.make ast.scheduled true
            (if ast.seq_lens.isEmpty then 0
             else ast.seq_lens.length * ast.seq_lens.foldl Nat.max 0)
            r_in s_in r_out s_out r_copy s_copy ast.ignored with
        | .error e => .error e
        | .ok out => .ok (out, ⟨waiting', ast.running, s.swapped, ast.bm⟩)
      else
        decodePhase env now ⟨waiting', ast.running, s.swapped, ast.bm⟩
          r_in s_in r_out s_out r_copy s_copy
  else
    decodePhase env now s r_in s_in r_out s_out r_copy s_copy

/-! ### Concrete instances used for witnesses and counterexamples -/

/-- A trivial block manager over the unit state: everything is always
possible and no block movements are ever reported. -/
def unitBM : BlockSpaceManagerIface Unit where
  can_allocate := fun _ _ _ _ => .OK
  allocate := fun _ _ _ _ => ()
  can_append_slot := fun _ _ => true
  append_slot := fun _ _ => ((), none, none)
  can_swap_in := fun _ _ => true
  swap_in := fun _ _ => ((), [], [])
  can_swap_out := fun _ _ => true
  swap_out := fun _ _ => ((), [], [])
  free := fun _ _ => ()

/-- An environment over `unitBM` with the identity priority sort (a legal
FCFS policy instance: the identity is a stable priority permutation). -/
def mkEnv (cfg : SchedulerConfig) : SchedEnv Unit :=
  ⟨cfg, true, none, unitBM, fun _ q => q⟩

/-- A trivial block manager that refuses `can_swap_out`. -/
def unitBMNoSwapOut : BlockSpaceManagerIface Unit :=
  { unitBM with can_swap_out := fun _ _ => false }

/-! ### Small arithmetic facts about the embedded structures -/

lemma setStatusAll_max_num_running_seqs (g : SequenceGroup) (src dst : SequenceStatus) :
    (setStatusAll g src dst).max_num_running_seqs = g.max_num_running_seqs := rfl

lemma totalMaxNumRunningSeqs_append (a b : List SequenceGroup) :
    totalMaxNumRunningSeqs (a ++ b) = totalMaxNumRunningSeqs a + totalMaxNumRunningSeqs b := by
  simp [totalMaxNumRunningSeqs]

lemma totalMaxNumRunningSeqs_cons (g : SequenceGroup) (l : List SequenceGroup) :
    totalMaxNumRunningSeqs (g :: l) = g.max_num_running_seqs + totalMaxNumRunningSeqs l := by
  simp [totalMaxNumRunningSeqs]

lemma totalMaxNumRunningSeqs_perm {a b : List SequenceGroup} (h : a.Perm b) :
    totalMaxNumRunningSeqs a = totalMaxNumRunningSeqs b := by
  unfold totalMaxNumRunningSeqs
  exact (h.map (fun g => g.max_num_running_seqs)).sum_eq

lemma totalMaxNumRunningSeqs_map_setStatusAll (l : List SequenceGroup)
    (src dst : SequenceStatus) :
    totalMaxNumRunningSeqs (l.map (fun g => setStatusAll g src dst)) =
      totalMaxNumRunningSeqs l := by
  simp only [totalMaxNumRunningSeqs, List.map_map]
  rfl

/-! ### C10: frame of `free_finished_seq_groups` -/

/-- C10: `free_finished_seq_groups` mutates only the running queue — it
keeps exactly the non-finished groups (their values, hence every sequence
status, untouched) in their original relative order, and leaves the
waiting queue, the swapped queue and the block-manager state unchanged. -/
theorem free_finished_seq_groups_frame {σ : Type} (s : SchedState σ) :
    (free_finished_seq_groups s).running = s.running.filter (fun g => !g.is_finished)
    ∧ (free_finished_seq_groups s).waiting = s.waiting
    ∧ (free_finished_seq_groups s).swapped = s.swapped
    ∧ (free_finished_seq_groups s).bm = s.bm
    ∧ List.Sublist (free_finished_seq_groups s).running s.running
    ∧ ∀ g ∈ s.running,
        (g ∈ (free_finished_seq_groups s).running ↔ g.is_finished = false) := by
  refine ⟨rfl, rfl, rfl, rfl, List.filter_sublist _, ?_⟩
  intro g hg
  simp [free_finished_seq_groups, List.mem_filter, hg]

/-- Witness for C10 at a concrete two-group running queue (one finished
group, one live group). -/
theorem free_finished_seq_groups_frame_witness :
    (⟨"live", [⟨1, .RUNNING, 4⟩], 1⟩ : SequenceGroup) ∈
      (⟨[], [⟨"done", [⟨0, .FINISHED_STOPPED, 4⟩], 1⟩, ⟨"live", [⟨1, .RUNNING, 4⟩], 1⟩],
        [], ()⟩ : SchedState Unit).running
    ∧ ((⟨"live", [⟨1, .RUNNING, 4⟩], 1⟩ : SequenceGroup) ∈
        (free_finished_seq_groups
          (⟨[], [⟨"done", [⟨0, .FINISHED_STOPPED, 4⟩], 1⟩, ⟨"live", [⟨1, .RUNNING, 4⟩], 1⟩],
            [], ()⟩ : SchedState Unit)).running
        ↔ (⟨"live", [⟨1, .RUNNING, 4⟩], 1⟩ : SequenceGroup).is_finished = false) :=
  ⟨by decide,
   (free_finished_seq_groups_frame
       (⟨[], [⟨"done", [⟨0, .FINISHED_STOPPED, 4⟩], 1⟩, ⟨"live", [⟨1, .RUNNING, 4⟩], 1⟩],
         [], ()⟩ : SchedState Unit)).2.2.2.2.2
     ⟨"live", [⟨1, .RUNNING, 4⟩], 1⟩ (by decide)⟩

/-! ### C7: `_swap_out` raises iff `can_swap_out` is false, atomically -/

/-- C7: `_swap_out` raises exactly when `block_manager.can_swap_out` answers
false, and the raise happens before any mutation: in the raising case the
manager state, both per-class swap-out maps and the group (hence every
sequence status in it) are exactly the inputs. -/
theorem swap_out_raises_iff_atomically {σ : Type} (env : SchedEnv σ) (bm : σ)
    (g : SequenceGroup) (r_out s_out : BlockDict) :
    ((_swap_out env bm g r_out s_out).raised = true ↔
      env.block_manager.can_swap_out bm g = false)
    ∧ ((_swap_out env bm g r_out s_out).raised = true →
        (_swap_out env bm g r_out s_out).bm = bm
        ∧ (_swap_out env bm g r_out s_out).r_out = r_out
        ∧ (_swap_out env bm g r_out s_out).s_out = s_out
        ∧ (_swap_out env bm g r_out s_out).group = g) := by
  unfold _swap_out
  cases h : env.block_manager.can_swap_out bm g <;> simp [h]

/-- Witness for C7 on a manager that refuses swap-out: the error is raised
and nothing is mutated. -/
theorem swap_out_raises_iff_atomically_witness :
    ((_swap_out (⟨⟨10, 10, 10⟩, true, none, unitBMNoSwapOut, fun _ q => q⟩ : SchedEnv Unit)
        () ⟨"g", [⟨0, .RUNNING, 3⟩], 2⟩ [(5, 6)] []).raised = true)
    ∧ ((_swap_out (⟨⟨10, 10, 10⟩, true, none, unitBMNoSwapOut, fun _ q => q⟩ : SchedEnv Unit)
        () ⟨"g", [⟨0, .RUNNING, 3⟩], 2⟩ [(5, 6)] []).bm = ()
       ∧ (_swap_out (⟨⟨10, 10, 10⟩, true, none, unitBMNoSwapOut, fun _ q => q⟩ : SchedEnv Unit)
            () ⟨"g", [⟨0, .RUNNING, 3⟩], 2⟩ [(5, 6)] []).r_out = [(5, 6)]
       ∧ (_swap_out (⟨⟨10, 10, 10⟩, true, none, unitBMNoSwapOut, fun _ q => q⟩ : SchedEnv Unit)
            () ⟨"g", [⟨0, .RUNNING, 3⟩], 2⟩ [(5, 6)] []).s_out = []
       ∧ (_swap_out (⟨⟨10, 10, 10⟩, true, none, unitBMNoSwapOut, fun _ q => q⟩ : SchedEnv Unit)
            () ⟨"g", [⟨0, .RUNNING, 3⟩], 2⟩ [(5, 6)] []).group = ⟨"g", [⟨0, .RUNNING, 3⟩], 2⟩) :=
  ⟨by decide,
   (swap_out_raises_iff_atomically
       (⟨⟨10, 10, 10⟩, true, none, unitBMNoSwapOut, fun _ q => q⟩ : SchedEnv Unit)
       () ⟨"g", [⟨0, .RUNNING, 3⟩], 2⟩ [(5, 6)] []).2 (by decide)⟩

/-! ### C9: add/abort round-trip -/

/-- The fold inside `abortGroupStep` produces exactly the map that marks
every non-finished sequence `FINISHED_ABORTED`. -/
lemma abortGroupStep_fold_seqs (bmi : BlockSpaceManagerIface σ) :
    ∀ (l : List Sequence) (b : σ) (acc : List Sequence),
      (l.foldl
        (fun (acc : σ × List Sequence) sq =>
          if sq.is_finished then
            (acc.1, acc.2 ++ [sq])
          else
            let sq' := { sq with status := SequenceStatus.FINISHED_ABORTED }
            (bmi.free acc.1 sq', acc.2 ++ [sq']))
        (b, acc)).2
      = acc ++ l.map (fun sq =>
          if sq.is_finished then sq
          else { sq with status := SequenceStatus.FINISHED_ABORTED }) := by
  intro l
  induction l with
  | nil => intro b acc; simp
  | cons sq rest ih =>
    intro b acc
    by_cases h : sq.is_finished
    · simp [h, ih]
    · simp [h, ih]

/-- The sequences of the group returned by `abortGroupStep`. -/
lemma abortGroupStep_seqs (bmi : BlockSpaceManagerIface σ) (bm : σ) (g : SequenceGroup) :
    ((abortGroupStep bmi bm g).2).seqs
      = g.seqs.map (fun sq =>
          if sq.is_finished then sq
          else { sq with status := SequenceStatus.FINISHED_ABORTED }) := by
  unfold abortGroupStep
  exact abortGroupStep_fold_seqs bmi g.seqs bm []

/-- C9: on a scheduler whose queues are otherwise empty,
`add_seq_group g` followed by `abort_seq_group [g.request_id]` leaves
`has_unfinished_seqs` false, the block-manager state is the one obtained by
freeing each previously non-finished sequence of `g` (with its status
already set to `FINISHED_ABORTED`, as the source frees after the status
write), and the aborted group's sequences are exactly `g`'s with every
non-finished one marked `FINISHED_ABORTED`. -/
theorem add_abort_roundtrip {σ : Type} (bmi : BlockSpaceManagerIface σ) (bm : σ)
    (g : SequenceGroup) :
    has_unfinished_seqs
        (abort_seq_group bmi (add_seq_group (⟨[], [], [], bm⟩ : SchedState σ) g)
          [g.request_id]) = false
    ∧ (abort_seq_group bmi (add_seq_group (⟨[], [], [], bm⟩ : SchedState σ) g)
          [g.request_id]).bm = (abortGroupStep bmi bm g).1
    ∧ ((abortGroupStep bmi bm g).2).seqs
        = g.seqs.map (fun sq =>
            if sq.is_finished then sq
            else { sq with status := SequenceStatus.FINISHED_ABORTED }) := by
  refine ⟨?_, ?_, abortGroupStep_seqs bmi bm g⟩ <;>
  · simp [abort_seq_group, add_seq_group, abortQueue, abortScan, has_unfinished_seqs,
      List.erase_cons]

/-! ### C5: `_preempt` with unset mode -/

/-- C5: with no explicit mode, a group whose `get_max_num_running_seqs()` is
1 is preempted by RECOMPUTE — its single `RUNNING` sequence is flipped to
`WAITING`, freed in the block manager, and the group is pushed to the front
of the waiting queue, with the swap-out maps and the swapped queue
untouched; any other group is preempted by SWAP — it is swapped out (its
`RUNNING` sequences become `SWAPPED`, the returned mappings are merged into
the swap-out maps) and appended to the back of the swapped queue, with the
waiting queue untouched. -/
theorem preempt_default_mode {σ : Type} (env : SchedEnv σ) (bm : σ)
    (g : SequenceGroup) (r_out s_out : BlockDict)
    (waiting swapped : List SequenceGroup) :
    (∀ sq, g.max_num_running_seqs = 1 → g.get_seqs .RUNNING = [sq] →
      _preempt env bm g r_out s_out waiting swapped none =
        .ok (env.block_manager.free bm { sq with status := .WAITING }, r_out, s_out,
             setStatusAll g .RUNNING .WAITING :: waiting, swapped,
             setStatusAll g .RUNNING .WAITING))
    ∧ (g.max_num_running_seqs ≠ 1 →
        env.block_manager.can_swap_out bm g = true →
        _preempt env bm g r_out s_out waiting swapped none =
          .ok ((env.block_manager.swap_out bm g).1,
               r_out.updateWith (env.block_manager.swap_out bm g).2.1,
               s_out.updateWith (env.block_manager.swap_out bm g).2.2,
               waiting, swapped ++ [setStatusAll g .RUNNING .SWAPPED],
               setStatusAll g .RUNNING .SWAPPED)) := by
  constructor
  · intro sq h1 hseqs
    unfold _preempt _preempt_by_recompute
    simp only [h1]
    rw [hseqs]
    simp
  · intro h1 hcan
    unfold _preempt _preempt_by_swap _swap_out
    have hbeq : (g.max_num_running_seqs == 1) = false := by
      simp [h1]
    simp only [hbeq]
    rcases hso : env.block_manager.swap_out bm g with ⟨bm2, rm, sm⟩
    simp [hcan, hso]

/-- Witness for C5: a single-sequence group is preempted by recompute at a
concrete input. -/
theorem preempt_default_mode_witness :
    ((⟨"g", [⟨0, .RUNNING, 3⟩], 1⟩ : SequenceGroup).max_num_running_seqs = 1)
    ∧ _preempt (mkEnv ⟨10, 10, 10⟩) () ⟨"g", [⟨0, .RUNNING, 3⟩], 1⟩ [] []
        [⟨"w", [⟨1, .WAITING, 2⟩], 1⟩] [] none =
       .ok (unitBM.free () ⟨0, .WAITING, 3⟩, [], [],
            setStatusAll ⟨"g", [⟨0, .RUNNING, 3⟩], 1⟩ .RUNNING .WAITING
              :: [⟨"w", [⟨1, .WAITING, 2⟩], 1⟩], [],
            setStatusAll ⟨"g", [⟨0, .RUNNING, 3⟩], 1⟩ .RUNNING .WAITING) :=
  ⟨by decide,
   (preempt_default_mode (mkEnv ⟨10, 10, 10⟩) () ⟨"g", [⟨0, .RUNNING, 3⟩], 1⟩ [] []
       [⟨"w", [⟨1, .WAITING, 2⟩], 1⟩] []).1
     ⟨0, .RUNNING, 3⟩ (by decide) (by decide)⟩

/-! ### Lemmas about the prompt-admission loop -/

lemma admitLoop_growth {σ : Type} (env : SchedEnv σ) (waiting : List SequenceGroup) (st : AdmitSt σ) :
    ∀ {ast : AdmitSt σ} {w' : List SequenceGroup},
      admitLoop env waiting st = .ok (ast, w') →
      ∃ d dl di,
        ast.scheduled = st.scheduled ++ d
        ∧ ast.running = st.running ++ d
        ∧ ast.seq_lens = st.seq_lens ++ dl
        ∧ ast.ignored = st.ignored ++ di
        ∧ dl.length = d.length := by
  induction waiting, st using admitLoop.induct env with
  | case1 st =>
    intro ast w' h
    simp only [admitLoop, Except.ok.injEq, Prod.mk.injEq] at h
    obtain ⟨rfl, rfl⟩ := h
    exact ⟨[], [], [], by simp, by simp, by simp, by simp, rfl⟩
  | case2 st g rest sq hq npt hlen =>
    rename_i ih
    intro ast w' h
    rw [admitLoop, hq] at h
    simp only [if_pos hlen] at h
    obtain ⟨d, dl, di, h1, h2, h3, h4, h5⟩ := ih h
    exact ⟨d, dl, ([setStatusAll g .WAITING .FINISHED_IGNORED] ++ di), by simpa using h1,
      by simpa using h2, by simpa using h3, by simpa using h4, h5⟩
  | case3 st g rest sq hq npt hlen =>
    rename_i hcan
    intro ast w' h
    rw [admitLoop, hq] at h
    simp only [if_neg hlen, hcan, Except.ok.injEq, Prod.mk.injEq] at h
    obtain ⟨rfl, rfl⟩ := h
    exact ⟨[], [], [], by simp, by simp, by simp, by simp, rfl⟩
  | case4 st g rest sq hq npt hlen =>
    rename_i hcan ih
    intro ast w' h
    rw [admitLoop, hq] at h
    simp only [if_neg hlen, hcan] at h
    obtain ⟨d, dl, di, h1, h2, h3, h4, h5⟩ := ih h
    exact ⟨d, dl, ([setStatusAll g .WAITING .FINISHED_IGNORED] ++ di), by simpa using h1,
      by simpa using h2, by simpa using h3, by simpa using h4, h5⟩
  | case5 st g rest sq hq npt hlen =>
    rename_i hcan nsl nbt hbudget
    intro ast w' h
    rw [admitLoop, hq] at h
    simp only [if_neg hlen, hcan, if_pos hbudget, Except.ok.injEq, Prod.mk.injEq] at h
    obtain ⟨rfl, rfl⟩ := h
    exact ⟨[], [], [], by simp, by simp, by simp, by simp, rfl⟩
  | case6 st g rest sq hq npt hlen =>
    rename_i hcan nsl nbt hbudget nns hcap
    intro ast w' h
    rw [admitLoop, hq] at h
    simp only [if_neg hlen, hcan, if_neg hbudget, if_pos hcap, Except.ok.injEq,
      Prod.mk.injEq] at h
    obtain ⟨rfl, rfl⟩ := h
    exact ⟨[], [], [], by simp, by simp, by simp, by simp, rfl⟩
  | case7 st g rest sq hq npt hlen =>
    rename_i hcan nsl nbt hbudget nns hcap bm' g' halloc ih
    intro ast w' h
    rw [admitLoop, hq] at h
    simp only [if_neg hlen, hcan, if_neg hbudget, if_neg hcap, halloc] at h
    obtain ⟨d, dl, di, h1, h2, h3, h4, h5⟩ := ih h
    refine ⟨g' :: d, sq.len :: dl, di, ?_, ?_, ?_, ?_, ?_⟩
    · simpa using h1
    · simpa using h2
    · unfold nsl at h3
      simpa using h3
    · simpa using h4
    · simpa using h5
  | case8 st g rest hq =>
    intro ast w' h
    rw [admitLoop] at h
    rcases hgs : g.get_seqs SequenceStatus.WAITING with _ | ⟨ws, _ | ⟨w2, tl⟩⟩
    · rw [hgs] at h; cases h
    · exact absurd hgs (by intro hh; exact hq ws hh)
    · rw [hgs] at h; cases h

lemma admitLoop_cap_invariant {σ : Type} (env : SchedEnv σ) (waiting : List SequenceGroup) (st : AdmitSt σ) :
    ∀ {ast : AdmitSt σ} {w' : List SequenceGroup},
      admitLoop env waiting st = .ok (ast, w') →
      st.num_curr_seqs = totalMaxNumRunningSeqs st.running →
      st.num_curr_seqs ≤ env.scheduler_config.max_num_seqs →
      ast.num_curr_seqs = totalMaxNumRunningSeqs ast.running
      ∧ ast.num_curr_seqs ≤ env.scheduler_config.max_num_seqs := by
  induction waiting, st using admitLoop.induct env with
  | case1 st =>
    intro ast w' h h1 h2
    simp only [admitLoop, Except.ok.injEq, Prod.mk.injEq] at h
    obtain ⟨rfl, rfl⟩ := h
    exact ⟨h1, h2⟩
  | case2 st g rest sq hq npt hlen =>
    rename_i ih
    intro ast w' h h1 h2
    rw [admitLoop, hq] at h
    simp only [if_pos hlen] at h
    exact ih h h1 h2
  | case3 st g rest sq hq npt hlen =>
    rename_i hcan
    intro ast w' h h1 h2
    rw [admitLoop, hq] at h
    simp only [if_neg hlen, hcan, Except.ok.injEq, Prod.mk.injEq] at h
    obtain ⟨rfl, rfl⟩ := h
    exact ⟨h1, h2⟩
  | case4 st g rest sq hq npt hlen =>
    rename_i hcan ih
    intro ast w' h h1 h2
    rw [admitLoop, hq] at h
    simp only [if_neg hlen, hcan] at h
    exact ih h h1 h2
  | case5 st g rest sq hq npt hlen =>
    rename_i hcan nsl nbt hbudget
    intro ast w' h h1 h2
    rw [admitLoop, hq] at h
    simp only [if_neg hlen, hcan, if_pos hbudget, Except.ok.injEq, Prod.mk.injEq] at h
    obtain ⟨rfl, rfl⟩ := h
    exact ⟨h1, h2⟩
  | case6 st g rest sq hq npt hlen =>
    rename_i hcan nsl nbt hbudget nns hcap
    intro ast w' h h1 h2
    rw [admitLoop, hq] at h
    simp only [if_neg hlen, hcan, if_neg hbudget, if_pos hcap, Except.ok.injEq,
      Prod.mk.injEq] at h
    obtain ⟨rfl, rfl⟩ := h
    exact ⟨h1, h2⟩
  | case7 st g rest sq hq npt hlen =>
    rename_i hcan nsl nbt hbudget nns hcap bm' g' halloc ih
    intro ast w' h h1 h2
    rw [admitLoop, hq] at h
    simp only [if_neg hlen, hcan, if_neg hbudget, if_neg hcap, halloc] at h
    have hg' : g'.max_num_running_seqs = g.max_num_running_seqs := by
      have hh : g' = (_allocate env st.bm g).2 := by rw [halloc]
      rw [hh]
      rfl
    refine ih h ?_ ?_
    · show st.num_curr_seqs + nns = totalMaxNumRunningSeqs (st.running ++ [g'])
      have hh : totalMaxNumRunningSeqs (st.running ++ [g'])
          = totalMaxNumRunningSeqs st.running + g.max_num_running_seqs := by
        rw [totalMaxNumRunningSeqs_append, totalMaxNumRunningSeqs_cons]
        simp [totalMaxNumRunningSeqs, hg']
      rw [hh, ← h1]
    · show st.num_curr_seqs + nns ≤ env.scheduler_config.max_num_seqs
      omega
  | case8 st g rest hq =>
    intro ast w' h h1 h2
    rw [admitLoop] at h
    rcases hgs : g.get_seqs SequenceStatus.WAITING with _ | ⟨ws, _ | ⟨w2, tl⟩⟩
    · rw [hgs] at h; cases h
    · exact absurd hgs (by intro hh; exact hq ws hh)
    · rw [hgs] at h; cases h

lemma admitLoop_budget_invariant {σ : Type} (env : SchedEnv σ) (waiting : List SequenceGroup) (st : AdmitSt σ) :
    ∀ {ast : AdmitSt σ} {w' : List SequenceGroup},
      admitLoop env waiting st = .ok (ast, w') →
      st.seq_lens.sum ≤ env.scheduler_config.max_num_batched_tokens →
      ast.seq_lens.sum ≤ env.scheduler_config.max_num_batched_tokens := by
  induction waiting, st using admitLoop.induct env with
  | case1 st =>
    intro ast w' h h1
    simp only [admitLoop, Except.ok.injEq, Prod.mk.injEq] at h
    obtain ⟨rfl, rfl⟩ := h
    exact h1
  | case2 st g rest sq hq npt hlen =>
    rename_i ih
    intro ast w' h h1
    rw [admitLoop, hq] at h
    simp only [if_pos hlen] at h
    exact ih h h1
  | case3 st g rest sq hq npt hlen =>
    rename_i hcan
    intro ast w' h h1
    rw [admitLoop, hq] at h
    simp only [if_neg hlen, hcan, Except.ok.injEq, Prod.mk.injEq] at h
    obtain ⟨rfl, rfl⟩ := h
    exact h1
  | case4 st g rest sq hq npt hlen =>
    rename_i hcan ih
    intro ast w' h h1
    rw [admitLoop, hq] at h
    simp only [if_neg hlen, hcan] at h
    exact ih h h1
  | case5 st g rest sq hq npt hlen =>
    rename_i hcan nsl nbt hbudget
    intro ast w' h h1
    rw [admitLoop, hq] at h
    simp only [if_neg hlen, hcan, if_pos hbudget, Except.ok.injEq, Prod.mk.injEq] at h
    obtain ⟨rfl, rfl⟩ := h
    exact h1
  | case6 st g rest sq hq npt hlen =>
    rename_i hcan nsl nbt hbudget nns hcap
    intro ast w' h h1
    rw [admitLoop, hq] at h
    simp only [if_neg hlen, hcan, if_neg hbudget, if_pos hcap, Except.ok.injEq,
      Prod.mk.injEq] at h
    obtain ⟨rfl, rfl⟩ := h
    exact h1
  | case7 st g rest sq hq npt hlen =>
    rename_i hcan nsl nbt hbudget nns hcap bm' g' halloc ih
    intro ast w' h h1
    rw [admitLoop, hq] at h
    simp only [if_neg hlen, hcan, if_neg hbudget, if_neg hcap, halloc] at h
    refine ih h ?_
    show nsl.sum ≤ env.scheduler_config.max_num_batched_tokens
    unfold nbt at hbudget
    omega
  | case8 st g rest hq =>
    intro ast w' h h1
    rw [admitLoop] at h
    rcases hgs : g.get_seqs SequenceStatus.WAITING with _ | ⟨ws, _ | ⟨w2, tl⟩⟩
    · rw [hgs] at h; cases h
    · exact absurd hgs (by intro hh; exact hq ws hh)
    · rw [hgs] at h; cases h

/-! ### Lemmas about the decode-phase loops -/

lemma totalMaxNumRunningSeqs_dropLast_le (l : List SequenceGroup) :
    totalMaxNumRunningSeqs l.dropLast ≤ totalMaxNumRunningSeqs l := by
  cases l with
  | nil => simp
  | cons a t =>
    conv_rhs => rw [← List.dropLast_append_getLast (List.cons_ne_nil a t)]
    rw [totalMaxNumRunningSeqs_append]
    omega

lemma preempt_by_recompute_error {σ : Type} {env : SchedEnv σ} {bm : σ}
    {g : SequenceGroup} {waiting : List SequenceGroup} {e : SchedError}
    (h : _preempt_by_recompute env bm g waiting = .error e) :
    e = .recomputeAssert := by
  unfold _preempt_by_recompute at h
  split at h
  · cases h
  · cases h
    rfl

lemma preempt_by_swap_error {σ : Type} {env : SchedEnv σ} {bm : σ}
    {g : SequenceGroup} {r_out s_out : BlockDict} {swapped : List SequenceGroup}
    {e : SchedError}
    (h : _preempt_by_swap env bm g r_out s_out swapped = .error e) :
    e = .swapSpace := by
  unfold _preempt_by_swap at h
  simp only [] at h
  split at h
  · cases h
    rfl
  · cases h

lemma preempt_error_shape {σ : Type} {env : SchedEnv σ} {bm : σ} {g : SequenceGroup}
    {r_out s_out : BlockDict} {waiting swapped : List SequenceGroup}
    {mode : Option PreemptionMode} {e : SchedError}
    (h : _preempt env bm g r_out s_out waiting swapped mode = .error e) :
    e = .recomputeAssert ∨ e = .swapSpace := by
  unfold _preempt at h
  cases hmv : (match mode with
      | none =>
        if g.max_num_running_seqs == 1 then PreemptionMode.RECOMPUTE
        else PreemptionMode.SWAP
      | some m => m) with
  | RECOMPUTE =>
    rw [hmv] at h
    simp only [] at h
    cases hrec : _preempt_by_recompute env bm g waiting with
    | error e2 =>
      rw [hrec] at h
      injection h with h2
      subst h2
      exact Or.inl (preempt_by_recompute_error hrec)
    | ok tup =>
      rw [hrec] at h
      rcases tup with ⟨bm2, waiting2, g2⟩
      cases h
  | SWAP =>
    rw [hmv] at h
    simp only [] at h
    cases hswp : _preempt_by_swap env bm g r_out s_out swapped with
    | error e2 =>
      rw [hswp] at h
      injection h with h2
      subst h2
      exact Or.inr (preempt_by_swap_error hswp)
    | ok tup =>
      rw [hswp] at h
      rcases tup with ⟨bm2, r2, s2, sw2, g2⟩
      cases h

lemma drainStep_growth {σ : Type} (env : SchedEnv σ) (fuel : Nat)
    (cur : Option SequenceGroup) (rest : List SequenceGroup) (st : DrainSt σ) :
    ∀ {res : DrainSt σ}, drainStep env fuel cur rest st = .ok res →
      ∃ d, res.preempted = st.preempted ++ d
        ∧ (d = [] → res.r_out = st.r_out ∧ res.s_out = st.s_out) := by
  induction fuel, cur, rest, st using drainStep.induct env with
  | case1 cur rest st =>
    intro res h
    simp [drainStep] at h
  | case2 st fuel =>
    intro res h
    simp only [drainStep, Except.ok.injEq] at h
    subst h
    exact ⟨[], by simp, fun _ => ⟨rfl, rfl⟩⟩
  | case3 st fuel g rest ih =>
    intro res h
    rw [drainStep] at h
    exact ih h
  | case4 rest st fuel g hcan bm rc sc happ ih =>
    intro res h
    rw [drainStep] at h
    simp only [hcan, if_true, happ] at h
    exact ih h
  | case5 rest st fuel g hcan victim hlast e herr =>
    intro res h
    rw [drainStep] at h
    simp only [hcan, Bool.false_eq_true, if_false, hlast, herr] at h
    cases h
  | case6 rest st fuel g hcan victim hlast bm' r_out' s_out' waiting' swapped' v' hok ih =>
    intro res h
    rw [drainStep] at h
    simp only [hcan, Bool.false_eq_true, if_false, hlast, hok] at h
    obtain ⟨d, hd, hmaps⟩ := ih h
    refine ⟨v' :: d, ?_, ?_⟩
    · simpa using hd
    · intro hnil
      cases hnil
  | case7 rest st fuel g hcan hlast e herr =>
    intro res h
    rw [drainStep] at h
    simp only [hcan, Bool.false_eq_true, if_false, hlast, herr] at h
    cases h
  | case8 rest st fuel g hcan hlast bm' r_out' s_out' waiting' swapped' v' hok =>
    intro res h
    rw [drainStep] at h
    simp only [hcan, Bool.false_eq_true, if_false, hlast, hok, Except.ok.injEq] at h
    subst h
    refine ⟨[v'], by simp, ?_⟩
    intro hnil
    cases hnil



lemma drainStep_newRunning_bound {σ : Type} (env : SchedEnv σ) (fuel : Nat)
    (cur : Option SequenceGroup) (rest : List SequenceGroup) (st : DrainSt σ) :
    ∀ {res : DrainSt σ}, drainStep env fuel cur rest st = .ok res →
      totalMaxNumRunningSeqs res.newRunning ≤
        totalMaxNumRunningSeqs st.newRunning
        + (match cur with | some g => g.max_num_running_seqs | none => 0)
        + totalMaxNumRunningSeqs rest := by
  induction fuel, cur, rest, st using drainStep.induct env with
  | case1 cur rest st =>
    intro res h
    simp [drainStep] at h
  | case2 st fuel =>
    intro res h
    simp only [drainStep, Except.ok.injEq] at h
    subst h
    simp
  | case3 st fuel g rest ih =>
    intro res h
    rw [drainStep] at h
    have hb := ih h
    rw [totalMaxNumRunningSeqs_cons]
    simp only [] at hb ⊢
    omega
  | case4 rest st fuel g hcan bm rc sc happ ih =>
    intro res h
    rw [drainStep] at h
    simp only [hcan, if_true, happ] at h
    have hb := ih h
    rw [totalMaxNumRunningSeqs_append, totalMaxNumRunningSeqs_cons] at hb
    simp only [totalMaxNumRunningSeqs] at hb ⊢
    simp at hb
    omega
  | case5 rest st fuel g hcan victim hlast e herr =>
    intro res h
    rw [drainStep] at h
    simp only [hcan, Bool.false_eq_true, if_false, hlast, herr] at h
    cases h
  | case6 rest st fuel g hcan victim hlast bm' r_out' s_out' waiting' swapped' v' hok ih =>
    intro res h
    rw [drainStep] at h
    simp only [hcan, Bool.false_eq_true, if_false, hlast, hok] at h
    have hb := ih h
    have hdl := totalMaxNumRunningSeqs_dropLast_le rest
    simp only [] at hb ⊢
    omega
  | case7 rest st fuel g hcan hlast e herr =>
    intro res h
    rw [drainStep] at h
    simp only [hcan, Bool.false_eq_true, if_false, hlast, herr] at h
    cases h
  | case8 rest st fuel g hcan hlast bm' r_out' s_out' waiting' swapped' v' hok =>
    intro res h
    rw [drainStep] at h
    simp only [hcan, Bool.false_eq_true, if_false, hlast, hok, Except.ok.injEq] at h
    subst h
    simp only []
    omega

lemma drainStep_fuel_sufficient {σ : Type} (env : SchedEnv σ) (fuel : Nat)
    (cur : Option SequenceGroup) (rest : List SequenceGroup) (st : DrainSt σ) :
    2 * rest.length + (if cur.isSome then 2 else 1) ≤ fuel →
    drainStep env fuel cur rest st ≠ .error .fuelExhausted := by
  induction fuel, cur, rest, st using drainStep.induct env with
  | case1 cur rest st =>
    intro hle
    exfalso
    cases cur <;> simp at hle
  | case2 st fuel =>
    intro hle
    simp [drainStep]
  | case3 st fuel g rest ih =>
    intro hle h
    rw [drainStep] at h
    refine ih ?_ h
    simp at hle ⊢
    omega
  | case4 rest st fuel g hcan bm rc sc happ ih =>
    intro hle h
    rw [drainStep] at h
    simp only [hcan, if_true, happ] at h
    refine ih ?_ h
    simp at hle ⊢
    omega
  | case5 rest st fuel g hcan victim hlast e herr =>
    intro hle h
    rw [drainStep] at h
    simp only [hcan, Bool.false_eq_true, if_false, hlast, herr] at h
    rcases preempt_error_shape herr with he | he <;> subst he <;> cases h
  | case6 rest st fuel g hcan victim hlast bm' r_out' s_out' waiting' swapped' v' hok ih =>
    intro hle h
    rw [drainStep] at h
    simp only [hcan, Bool.false_eq_true, if_false, hlast, hok] at h
    refine ih ?_ h
    have hne : rest ≠ [] := by
      intro hr
      rw [hr] at hlast
      cases hlast
    have hlen := List.length_dropLast rest
    have hpos : 0 < rest.length := List.length_pos.mpr hne
    simp at hle ⊢
    omega
  | case7 rest st fuel g hcan hlast e herr =>
    intro hle h
    rw [drainStep] at h
    simp only [hcan, Bool.false_eq_true, if_false, hlast, herr] at h
    rcases preempt_error_shape herr with he | he <;> subst he <;> cases h
  | case8 rest st fuel g hcan hlast bm' r_out' s_out' waiting' swapped' v' hok =>
    intro hle h
    rw [drainStep] at h
    simp only [hcan, Bool.false_eq_true, if_false, hlast, hok] at h
    cases h



lemma swap_in_group (env : SchedEnv σ) (bm : σ) (g : SequenceGroup)
    (r_in s_in : BlockDict) :
    (_swap_in env bm g r_in s_in).2.2.2 = setStatusAll g .SWAPPED .RUNNING := rfl

lemma swapInLoop_spec {σ : Type} (env : SchedEnv σ) (q : List SequenceGroup) (st : SwapSt σ) :
    ∃ taken,
      q = taken ++ (swapInLoop env q st).2
      ∧ (swapInLoop env q st).1.running
          = st.running ++ taken.map (fun g => setStatusAll g .SWAPPED .RUNNING)
      ∧ (swapInLoop env q st).1.num_curr_seqs
          = st.num_curr_seqs + totalMaxNumRunningSeqs taken
      ∧ (∀ g2 t2, (swapInLoop env q st).2 = g2 :: t2 →
          env.block_manager.can_swap_in (swapInLoop env q st).1.bm g2 = false
          ∨ (swapInLoop env q st).1.num_curr_seqs + g2.max_num_running_seqs
              > env.scheduler_config.max_num_seqs) := by
  induction q, st using swapInLoop.induct env with
  | case1 st =>
    refine ⟨[], by simp [swapInLoop], by simp [swapInLoop], by simp [swapInLoop, totalMaxNumRunningSeqs], ?_⟩
    intro g2 t2 h2
    rw [swapInLoop] at h2
    cases h2
  | case2 st g rest hstop =>
    have hres : swapInLoop env (g :: rest) st = (st, g :: rest) := by
      rw [swapInLoop]
      simp [hstop]
    refine ⟨[], by simp [hres], by simp [hres], by simp [hres, totalMaxNumRunningSeqs], ?_⟩
    intro g2 t2 h2
    rw [hres] at h2
    simp only [] at h2
    obtain ⟨rfl, rfl⟩ : g = g2 ∧ rest = t2 := by
      injection h2 with ha hb
      exact ⟨ha, hb⟩
    rw [hres]
    left
    simpa using hstop
  | case3 st g rest hcan hcap =>
    have hres : swapInLoop env (g :: rest) st = (st, g :: rest) := by
      rw [swapInLoop]
      simp [hcan, hcap]
    refine ⟨[], by simp [hres], by simp [hres], by simp [hres, totalMaxNumRunningSeqs], ?_⟩
    intro g2 t2 h2
    rw [hres] at h2
    simp only [] at h2
    obtain ⟨rfl, rfl⟩ : g = g2 ∧ rest = t2 := by
      injection h2 with ha hb
      exact ⟨ha, hb⟩
    rw [hres]
    right
    exact hcap
  | case4 st g rest hcan hcap bm' r_in' s_in' g' hsw bm rc sc happ ih =>
    have hg' : g' = setStatusAll g .SWAPPED .RUNNING := by
      have hh : g' = (_swap_in env st.bm g st.r_in st.s_in).2.2.2 := by rw [hsw]
      rw [hh, swap_in_group]
    have hres : swapInLoop env (g :: rest) st
        = swapInLoop env rest
            ⟨bm, r_in', s_in', rc, sc, st.running ++ [g'],
             st.num_curr_seqs + g.max_num_running_seqs⟩ := by
      rw [swapInLoop]
      simp [hcan, hcap, hsw, happ]
    obtain ⟨taken', h1, h2, h3, h4⟩ := ih
    refine ⟨g :: taken', ?_, ?_, ?_, ?_⟩
    · rw [hres]
      simp only [List.cons_append, List.cons.injEq, true_and]
      exact h1
    · rw [hres, h2]
      simp [hg']
    · rw [hres, h3]
      simp only []
      rw [totalMaxNumRunningSeqs_cons]
      omega
    · intro g2 t2 hrem
      rw [hres] at hrem ⊢
      exact h4 g2 t2 hrem

lemma swapInLoop_cap {σ : Type} (env : SchedEnv σ) (q : List SequenceGroup) (st : SwapSt σ) :
    st.num_curr_seqs ≤ env.scheduler_config.max_num_seqs →
    (swapInLoop env q st).1.num_curr_seqs ≤ env.scheduler_config.max_num_seqs := by
  induction q, st using swapInLoop.induct env with
  | case1 st =>
    intro h
    simpa [swapInLoop] using h
  | case2 st g rest hstop =>
    intro h
    rw [swapInLoop]
    simpa [hstop] using h
  | case3 st g rest hcan hcap =>
    intro h
    rw [swapInLoop]
    simpa [hcan, hcap] using h
  | case4 st g rest hcan hcap bm' r_in' s_in' g' hsw bm rc sc happ ih =>
    intro h
    have hres : swapInLoop env (g :: rest) st
        = swapInLoop env rest
            ⟨bm, r_in', s_in', rc, sc, st.running ++ [g'],
             st.num_curr_seqs + g.max_num_running_seqs⟩ := by
      rw [swapInLoop]
      simp [hcan, hcap, hsw, happ]
    rw [hres]
    refine ih ?_
    simp only []
    omega

/-! ### Inversion lemmas for the tick -/

lemma make_ok_inv {scheduled : List SequenceGroup} {prompt_run : Bool}
    {nbt : Nat} {r_in s_in r_out s_out : BlockDict} {r_copy s_copy : CopyDict}
    {ignored : List SequenceGroup} {out : SchedulerOutputs}
    (h : SchedulerOutputs.make scheduled prompt_run nbt r_in s_in r_out s_out
          r_copy s_copy ignored = .ok out) :
    out = ⟨scheduled, prompt_run, nbt, r_in, s_in, r_out, s_out, r_copy, s_copy, ignored⟩ := by
  unfold SchedulerOutputs.make at h
  split_ifs at h
  cases h
  rfl

lemma make_ok_of_empty {scheduled : List SequenceGroup} {prompt_run : Bool}
    {nbt : Nat} {r_in s_in r_out s_out : BlockDict} {r_copy s_copy : CopyDict}
    {ignored : List SequenceGroup}
    (hr : r_in = [] ∨ r_out = []) (hs : s_in = [] ∨ s_out = []) :
    SchedulerOutputs.make scheduled prompt_run nbt r_in s_in r_out s_out
        r_copy s_copy ignored
      = .ok ⟨scheduled, prompt_run, nbt, r_in, s_in, r_out, s_out, r_copy, s_copy, ignored⟩ := by
  unfold SchedulerOutputs.make
  have h1 : (!r_in.isEmpty && !r_out.isEmpty) = false := by
    rcases hr with h | h <;> subst h <;> simp
  have h2 : (!s_in.isEmpty && !s_out.isEmpty) = false := by
    rcases hs with h | h <;> subst h <;> simp
  rw [h1, h2]
  simp

lemma decodePhase_inv {σ : Type} {env : SchedEnv σ} {now : Nat} {s : SchedState σ}
    {r_in s_in r_out s_out : BlockDict} {r_copy s_copy : CopyDict}
    {out : SchedulerOutputs} {s' : SchedState σ}
    (h : decodePhase env now s r_in s_in r_out s_out r_copy s_copy = .ok (out, s')) :
    out.prompt_run = false
    ∧ out.ignored_seq_groups = []
    ∧ out.scheduled_seq_groups = s'.running
    ∧ ∃ dst, drainStep env (2 * (env.sort_by_priority now s.running).length + 2) none
        (env.sort_by_priority now s.running)
        ⟨s.bm, s.waiting, s.swapped, r_out, s_out, r_copy, s_copy, [], []⟩ = .ok dst
      ∧ out.retrieval_blocks_to_swap_out = dst.r_out
      ∧ out.streaming_blocks_to_swap_out = dst.s_out
      ∧ s'.waiting = dst.waiting
      ∧ (dst.preempted.isEmpty = true →
          s'.running = (swapInLoop env (env.sort_by_priority now dst.swapped)
              ⟨dst.bm, r_in, s_in, dst.r_copy, dst.s_copy, dst.newRunning,
               totalMaxNumRunningSeqs dst.newRunning⟩).1.running
          ∧ s'.swapped = (swapInLoop env (env.sort_by_priority now dst.swapped)
              ⟨dst.bm, r_in, s_in, dst.r_copy, dst.s_copy, dst.newRunning,
               totalMaxNumRunningSeqs dst.newRunning⟩).2
          ∧ s'.bm = (swapInLoop env (env.sort_by_priority now dst.swapped)
              ⟨dst.bm, r_in, s_in, dst.r_copy, dst.s_copy, dst.newRunning,
               totalMaxNumRunningSeqs dst.newRunning⟩).1.bm
          ∧ out.retrieval_blocks_to_swap_in = (swapInLoop env (env.sort_by_priority now dst.swapped)
              ⟨dst.bm, r_in, s_in, dst.r_copy, dst.s_copy, dst.newRunning,
               totalMaxNumRunningSeqs dst.newRunning⟩).1.r_in
          ∧ out.streaming_blocks_to_swap_in = (swapInLoop env (env.sort_by_priority now dst.swapped)
              ⟨dst.bm, r_in, s_in, dst.r_copy, dst.s_copy, dst.newRunning,
               totalMaxNumRunningSeqs dst.newRunning⟩).1.s_in)
      ∧ (dst.preempted.isEmpty = false →
          s'.running = dst.newRunning
          ∧ s'.swapped = env.sort_by_priority now dst.swapped
          ∧ s'.bm = dst.bm
          ∧ out.retrieval_blocks_to_swap_in = r_in
          ∧ out.streaming_blocks_to_swap_in = s_in) := by
  unfold decodePhase at h
  simp only [] at h
  cases hdr : drainStep env (2 * (env.sort_by_priority now s.running).length + 2) none
      (env.sort_by_priority now s.running)
      ⟨s.bm, s.waiting, s.swapped, r_out, s_out, r_copy, s_copy, [], []⟩ with
  | error e =>
    rw [hdr] at h
    cases h
  | ok dst =>
    rw [hdr] at h
    simp only [] at h
    by_cases hp : dst.preempted.isEmpty
    · rw [if_pos hp] at h
      rcases hsw : swapInLoop env (env.sort_by_priority now dst.swapped)
          ⟨dst.bm, r_in, s_in, dst.r_copy, dst.s_copy, dst.newRunning,
           totalMaxNumRunningSeqs dst.newRunning⟩ with ⟨sst, rem⟩
      rw [hsw] at h
      simp only [] at h
      cases hmk : SchedulerOutputs.make sst.running false
          ((sst.running.map (fun g => g.num_seqs .RUNNING)).sum)
          sst.r_in sst.s_in dst.r_out dst.s_out sst.r_copy sst.s_copy [] with
      | error e =>
        rw [hmk] at h
        cases h
      | ok out0 =>
        rw [hmk] at h
        injection h with h1
        injection h1 with hout hstate
        subst hout
        subst hstate
        have hfields := make_ok_inv hmk
        subst hfields
        refine ⟨rfl, rfl, rfl, dst, rfl, rfl, rfl, rfl, ?_, ?_⟩
        · intro _
          rw [hsw]
          exact ⟨rfl, rfl, rfl, rfl, rfl⟩
        · intro hcontra
          rw [hp] at hcontra
          cases hcontra
    · rw [if_neg hp] at h
      simp only [] at h
      cases hmk : SchedulerOutputs.make dst.newRunning false
          ((dst.newRunning.map (fun g => g.num_seqs .RUNNING)).sum)
          r_in s_in dst.r_out dst.s_out dst.r_copy dst.s_copy [] with
      | error e =>
        rw [hmk] at h
        cases h
      | ok out0 =>
        rw [hmk] at h
        injection h with h1
        injection h1 with hout hstate
        subst hout
        subst hstate
        have hfields := make_ok_inv hmk
        subst hfields
        refine ⟨rfl, rfl, rfl, dst, rfl, rfl, rfl, rfl, ?_, ?_⟩
        · intro hcontra
          rw [eq_false_of_ne_true hp] at hcontra
          cases hcontra
        · intro _
          exact ⟨rfl, rfl, rfl, rfl, rfl⟩



lemma schedule_prompt_inv {σ : Type} {env : SchedEnv σ} {now : Nat}
    {s : SchedState σ} {out : SchedulerOutputs} {s' : SchedState σ}
    (h : _schedule env now s = .ok (out, s')) (hp : out.prompt_run = true) :
    s.swapped = []
    ∧ ∃ ast w', admitLoop env s.waiting (admitInit s) = .ok (ast, w')
      ∧ out = ⟨ast.scheduled, true,
          (if ast.seq_lens.isEmpty then 0
           else ast.seq_lens.length * ast.seq_lens.foldl Nat.max 0),
          [], [], [], [], [], [], ast.ignored⟩
      ∧ s' = ⟨w', ast.running, s.swapped, ast.bm⟩ := by
  unfold _schedule at h
  simp only [] at h
  by_cases hsw : s.swapped.isEmpty
  · rw [if_pos hsw] at h
    cases had : admitLoop env s.waiting (admitInit s) with
    | error e =>
      rw [had] at h
      cases h
    | ok pair =>
      rcases pair with ⟨ast, w'⟩
      rw [had] at h
      simp only [] at h
      by_cases hne : (!ast.scheduled.isEmpty || !ast.ignored.isEmpty) = true
      · rw [if_pos hne] at h
        cases hmk : SchedulerOutputs.make ast.scheduled true
            (if ast.seq_lens.isEmpty then 0
             else ast.seq_lens.length * ast.seq_lens.foldl Nat.max 0)
            [] [] [] [] [] [] ast.ignored with
        | error e =>
          rw [hmk] at h
          cases h
        | ok out0 =>
          rw [hmk] at h
          injection h with h1
          injection h1 with hout hstate
          subst hout
          subst hstate
          have hfields := make_ok_inv hmk
          subst hfields
          exact ⟨by simpa using hsw, ast, w', rfl, rfl, rfl⟩
      · rw [if_neg hne] at h
        have := (decodePhase_inv h).1
        rw [hp] at this
        cases this
  · rw [if_neg hsw] at h
    have := (decodePhase_inv h).1
    rw [hp] at this
    cases this

lemma schedule_decode_inv {σ : Type} {env : SchedEnv σ} {now : Nat}
    {s : SchedState σ} {out : SchedulerOutputs} {s' : SchedState σ}
    (h : _schedule env now s = .ok (out, s')) (hp : out.prompt_run = false) :
    ∃ s0 : SchedState σ,
      decodePhase env now s0 [] [] [] [] [] [] = .ok (out, s')
      ∧ (s0 = s
         ∨ (s.swapped = [] ∧ ∃ ast w',
             admitLoop env s.waiting (admitInit s) = .ok (ast, w')
             ∧ ast.scheduled = [] ∧ ast.ignored = []
             ∧ s0 = ⟨w', ast.running, s.swapped, ast.bm⟩)) := by
  unfold _schedule at h
  simp only [] at h
  by_cases hsw : s.swapped.isEmpty
  · rw [if_pos hsw] at h
    cases had : admitLoop env s.waiting (admitInit s) with
    | error e =>
      rw [had] at h
      cases h
    | ok pair =>
      rcases pair with ⟨ast, w'⟩
      rw [had] at h
      simp only [] at h
      by_cases hne : (!ast.scheduled.isEmpty || !ast.ignored.isEmpty) = true
      · rw [if_pos hne] at h
        exfalso
        cases hmk : SchedulerOutputs.make ast.scheduled true
            (if ast.seq_lens.isEmpty then 0
             else ast.seq_lens.length * ast.seq_lens.foldl Nat.max 0)
            [] [] [] [] [] [] ast.ignored with
        | error e =>
          rw [hmk] at h
          cases h
        | ok out0 =>
          rw [hmk] at h
          injection h with h1
          injection h1 with hout hstate
          subst hout
          have hfields := make_ok_inv hmk
          rw [hfields] at hp
          cases hp
      · rw [if_neg hne] at h
        have hboth : ast.scheduled = [] ∧ ast.ignored = [] := by
          have hfalse : (!ast.scheduled.isEmpty || !ast.ignored.isEmpty) = false :=
            eq_false_of_ne_true hne
          simp only [Bool.or_eq_false_iff, Bool.not_eq_false'] at hfalse
          exact ⟨by simpa using hfalse.1, by simpa using hfalse.2⟩
        exact ⟨⟨w', ast.running, s.swapped, ast.bm⟩, h,
          Or.inr ⟨by simpa using hsw, ast, w', rfl, hboth.1, hboth.2, rfl⟩⟩
  · rw [if_neg hsw] at h
    exact ⟨s, h, Or.inl rfl⟩

lemma admitLoop_error_shape {σ : Type} (env : SchedEnv σ) (waiting : List SequenceGroup)
    (st : AdmitSt σ) :
    ∀ {e : SchedError}, admitLoop env waiting st = .error e → e = .waitingAssert := by
  induction waiting, st using admitLoop.induct env with
  | case1 st =>
    intro e h
    simp [admitLoop] at h
  | case2 st g rest sq hq npt hlen =>
    rename_i ih
    intro e h
    rw [admitLoop, hq] at h
    simp only [if_pos hlen] at h
    exact ih h
  | case3 st g rest sq hq npt hlen =>
    rename_i hcan
    intro e h
    rw [admitLoop, hq] at h
    simp only [if_neg hlen, hcan] at h
    cases h
  | case4 st g rest sq hq npt hlen =>
    rename_i hcan ih
    intro e h
    rw [admitLoop, hq] at h
    simp only [if_neg hlen, hcan] at h
    exact ih h
  | case5 st g rest sq hq npt hlen =>
    rename_i hcan nsl nbt hbudget
    intro e h
    rw [admitLoop, hq] at h
    simp only [if_neg hlen, hcan, if_pos hbudget] at h
    cases h
  | case6 st g rest sq hq npt hlen =>
    rename_i hcan nsl nbt hbudget nns hcap
    intro e h
    rw [admitLoop, hq] at h
    simp only [if_neg hlen, hcan, if_neg hbudget, if_pos hcap] at h
    cases h
  | case7 st g rest sq hq npt hlen =>
    rename_i hcan nsl nbt hbudget nns hcap bm' g' halloc ih
    intro e h
    rw [admitLoop, hq] at h
    simp only [if_neg hlen, hcan, if_neg hbudget, if_neg hcap, halloc] at h
    exact ih h
  | case8 st g rest hq =>
    intro e h
    rw [admitLoop] at h
    rcases hgs : g.get_seqs SequenceStatus.WAITING with _ | ⟨ws, _ | ⟨w2, tl⟩⟩
    · rw [hgs] at h
      injection h with h2
      exact h2.symm
    · exact absurd hgs (by intro hh; exact hq ws hh)
    · rw [hgs] at h
      injection h with h2
      exact h2.symm

lemma drainStep_error_shape {σ : Type} (env : SchedEnv σ) (fuel : Nat)
    (cur : Option SequenceGroup) (rest : List SequenceGroup) (st : DrainSt σ) :
    ∀ {e : SchedError}, drainStep env fuel cur rest st = .error e →
      e = .fuelExhausted ∨ e = .recomputeAssert ∨ e = .swapSpace := by
  induction fuel, cur, rest, st using drainStep.induct env with
  | case1 cur rest st =>
    intro e h
    simp only [drainStep] at h
    injection h with h2
    exact Or.inl h2.symm
  | case2 st fuel =>
    intro e h
    simp [drainStep] at h
  | case3 st fuel g rest ih =>
    intro e h
    rw [drainStep] at h
    exact ih h
  | case4 rest st fuel g hcan bm rc sc happ ih =>
    intro e h
    rw [drainStep] at h
    simp only [hcan, if_true, happ] at h
    exact ih h
  | case5 rest st fuel g hcan victim hlast e2 herr =>
    intro e h
    rw [drainStep] at h
    simp only [hcan, Bool.false_eq_true, if_false, hlast, herr] at h
    injection h with h2
    subst h2
    exact Or.inr (preempt_error_shape herr)
  | case6 rest st fuel g hcan victim hlast bm' r_out' s_out' waiting' swapped' v' hok ih =>
    intro e h
    rw [drainStep] at h
    simp only [hcan, Bool.false_eq_true, if_false, hlast, hok] at h
    exact ih h
  | case7 rest st fuel g hcan hlast e2 herr =>
    intro e h
    rw [drainStep] at h
    simp only [hcan, Bool.false_eq_true, if_false, hlast, herr] at h
    injection h with h2
    subst h2
    exact Or.inr (preempt_error_shape herr)
  | case8 rest st fuel g hcan hlast bm' r_out' s_out' waiting' swapped' v' hok =>
    intro e h
    rw [drainStep] at h
    simp only [hcan, Bool.false_eq_true, if_false, hlast, hok] at h
    cases h

lemma decodePhase_no_swap_assert {σ : Type} (env : SchedEnv σ) (now : Nat)
    (s : SchedState σ) (r_copy s_copy : CopyDict) (b : Bool) :
    decodePhase env now s [] [] [] [] r_copy s_copy ≠ .error (.outputsSwapAssert b) := by
  intro h
  unfold decodePhase at h
  simp only [] at h
  cases hdr : drainStep env (2 * (env.sort_by_priority now s.running).length + 2) none
      (env.sort_by_priority now s.running)
      ⟨s.bm, s.waiting, s.swapped, [], [], r_copy, s_copy, [], []⟩ with
  | error e =>
    rw [hdr] at h
    injection h with h2
    subst h2
    rcases drainStep_error_shape env _ _ _ _ hdr with h3 | h3 | h3 <;> cases h3
  | ok dst =>
    rw [hdr] at h
    simp only [] at h
    by_cases hp : dst.preempted.isEmpty
    · rw [if_pos hp] at h
      have hout : dst.r_out = [] ∧ dst.s_out = [] := by
        obtain ⟨d, hd, hmaps⟩ := drainStep_growth env _ _ _ _ hdr
        have hdnil : d = [] := by
          have : dst.preempted = [] := List.isEmpty_iff.mp hp
          rw [this] at hd
          exact (List.append_eq_nil.mp hd.symm).2
        exact hmaps hdnil
      rcases hsw : swapInLoop env (env.sort_by_priority now dst.swapped)
          ⟨dst.bm, [], [], dst.r_copy, dst.s_copy, dst.newRunning,
           totalMaxNumRunningSeqs dst.newRunning⟩ with ⟨sst, rem⟩
      rw [hsw] at h
      simp only [] at h
      rw [hout.1, hout.2] at h
      rw [make_ok_of_empty (Or.inr rfl) (Or.inr rfl)] at h
      cases h
    · rw [if_neg hp] at h
      simp only [] at h
      rw [make_ok_of_empty (Or.inl rfl) (Or.inl rfl)] at h
      cases h




lemma make_error_shape {scheduled : List SequenceGroup} {prompt_run : Bool}
    {nbt : Nat} {r_in s_in r_out s_out : BlockDict} {r_copy s_copy : CopyDict}
    {ignored : List SequenceGroup} {e : SchedError}
    (h : SchedulerOutputs.make scheduled prompt_run nbt r_in s_in r_out s_out
          r_copy s_copy ignored = .error e) :
    e = .outputsSwapAssert true ∨ e = .outputsSwapAssert false := by
  unfold SchedulerOutputs.make at h
  split_ifs at h
  · injection h with h2
    exact Or.inl h2.symm
  · injection h with h2
    exact Or.inr h2.symm

lemma decodePhase_no_fuel_error {σ : Type} (env : SchedEnv σ) (now : Nat)
    (s : SchedState σ) (r_in s_in r_out s_out : BlockDict)
    (r_copy s_copy : CopyDict) :
    decodePhase env now s r_in s_in r_out s_out r_copy s_copy
      ≠ .error .fuelExhausted := by
  intro h
  unfold decodePhase at h
  simp only [] at h
  cases hdr : drainStep env (2 * (env.sort_by_priority now s.running).length + 2) none
      (env.sort_by_priority now s.running)
      ⟨s.bm, s.waiting, s.swapped, r_out, s_out, r_copy, s_copy, [], []⟩ with
  | error e =>
    rw [hdr] at h
    injection h with h2
    subst h2
    exact drainStep_fuel_sufficient env _ none _ _ (by simp) hdr
  | ok dst =>
    rw [hdr] at h
    simp only [] at h
    by_cases hp : dst.preempted.isEmpty
    · rw [if_pos hp] at h
      rcases hsw : swapInLoop env (env.sort_by_priority now dst.swapped)
          ⟨dst.bm, r_in, s_in, dst.r_copy, dst.s_copy, dst.newRunning,
           totalMaxNumRunningSeqs dst.newRunning⟩ with ⟨sst, rem⟩
      rw [hsw] at h
      simp only [] at h
      cases hmk : SchedulerOutputs.make sst.running false
          ((sst.running.map (fun g => g.num_seqs .RUNNING)).sum)
          sst.r_in sst.s_in dst.r_out dst.s_out sst.r_copy sst.s_copy [] with
      | error e =>
        rw [hmk] at h
        injection h with h2
        subst h2
        rcases make_error_shape hmk with h3 | h3 <;> cases h3
      | ok out0 =>
        rw [hmk] at h
        cases h
    · rw [if_neg hp] at h
      simp only [] at h
      cases hmk : SchedulerOutputs.make dst.newRunning false
          ((dst.newRunning.map (fun g => g.num_seqs .RUNNING)).sum)
          r_in s_in dst.r_out dst.s_out dst.r_copy dst.s_copy [] with
      | error e =>
        rw [hmk] at h
        injection h with h2
        subst h2
        rcases make_error_shape hmk with h3 | h3 <;> cases h3
      | ok out0 =>
        rw [hmk] at h
        cases h

/-- Sanity check for the bounded encoding of the append-slot loop: the fuel
`_schedule` supplies is always sufficient, so the `fuelExhausted` artifact
never escapes a tick and the encoding coincides with the source's loop. -/
lemma schedule_no_fuel_error {σ : Type} (env : SchedEnv σ) (now : Nat)
    (s : SchedState σ) :
    _schedule env now s ≠ .error .fuelExhausted := by
  intro h
  unfold _schedule at h
  simp only [] at h
  by_cases hsw : s.swapped.isEmpty
  · rw [if_pos hsw] at h
    cases had : admitLoop env s.waiting (admitInit s) with
    | error e =>
      rw [had] at h
      injection h with h2
      subst h2
      have h3 := admitLoop_error_shape env _ _ had
      cases h3
    | ok pair =>
      rcases pair with ⟨ast, w'⟩
      rw [had] at h
      simp only [] at h
      by_cases hne : (!ast.scheduled.isEmpty || !ast.ignored.isEmpty) = true
      · rw [if_pos hne] at h
        cases hmk : SchedulerOutputs.make ast.scheduled true
            (if ast.seq_lens.isEmpty then 0
             else ast.seq_lens.length * ast.seq_lens.foldl Nat.max 0)
            [] [] [] [] [] [] ast.ignored with
        | error e =>
          rw [hmk] at h
          injection h with h2
          subst h2
          rcases make_error_shape hmk with h3 | h3 <;> cases h3
        | ok out0 =>
          rw [hmk] at h
          cases h
      · rw [if_neg hne] at h
        exact decodePhase_no_fuel_error env now _ _ _ _ _ _ _ h
  · rw [if_neg hsw] at h
    exact decodePhase_no_fuel_error env now s _ _ _ _ _ _ h


/-! ### Concrete example data for witnesses and counterexamples -/

def cfgEx : SchedulerConfig := ⟨100, 10, 10⟩

def envEx : SchedEnv Unit := mkEnv cfgEx

def gEx1 : SequenceGroup := ⟨"r1", [⟨1, .WAITING, 6⟩], 1⟩

def gEx2 : SequenceGroup := ⟨"r2", [⟨2, .WAITING, 6⟩], 1⟩

def gEx3 : SequenceGroup := ⟨"r3", [⟨3, .WAITING, 11⟩], 1⟩

def stEx : SchedState Unit := ⟨[gEx1, gEx2, gEx3], [], [], ()⟩

def outPromptEx : SchedulerOutputs :=
  ⟨[⟨"r1", [⟨1, .RUNNING, 6⟩], 1⟩], true, 6, [], [], [], [], [], [], []⟩

def stPromptEx : SchedState Unit :=
  ⟨[gEx2, gEx3], [⟨"r1", [⟨1, .RUNNING, 6⟩], 1⟩], [], ()⟩

/-! ### C1: per-class swap-in and swap-out never both non-empty -/

/-- C1: on every tick, the two assertions in the `SchedulerOutputs`
constructor never fire — `_schedule` never returns that assertion error —
and in every returned plan, for each cache class the swap-in and swap-out
maps are not both non-empty. -/
theorem plan_swap_in_out_exclusive {σ : Type} (env : SchedEnv σ) (now : Nat)
    (s : SchedState σ) :
    (∀ b, _schedule env now s ≠ .error (.outputsSwapAssert b))
    ∧ (∀ out s', _schedule env now s = .ok (out, s') →
        (out.retrieval_blocks_to_swap_in = [] ∨ out.retrieval_blocks_to_swap_out = [])
        ∧ (out.streaming_blocks_to_swap_in = [] ∨ out.streaming_blocks_to_swap_out = [])) := by
  constructor
  · intro b h
    unfold _schedule at h
    simp only [] at h
    by_cases hsw : s.swapped.isEmpty
    · rw [if_pos hsw] at h
      cases had : admitLoop env s.waiting (admitInit s) with
      | error e =>
        rw [had] at h
        injection h with h2
        have h3 := admitLoop_error_shape env _ _ had
        rw [h2] at h3
        cases h3
      | ok pair =>
        rcases pair with ⟨ast, w'⟩
        rw [had] at h
        simp only [] at h
        by_cases hne : (!ast.scheduled.isEmpty || !ast.ignored.isEmpty) = true
        · rw [if_pos hne] at h
          rw [make_ok_of_empty (Or.inl rfl) (Or.inl rfl)] at h
          cases h
        · rw [if_neg hne] at h
          exact decodePhase_no_swap_assert env now _ _ _ b h
    · rw [if_neg hsw] at h
      exact decodePhase_no_swap_assert env now s _ _ b h
  · intro out s' h
    cases hp : out.prompt_run
    · obtain ⟨s0, hdec, _⟩ := schedule_decode_inv h hp
      obtain ⟨_, _, _, dst, hdr, hro, hso, _, hpe, hpne⟩ := decodePhase_inv hdec
      by_cases hq : dst.preempted.isEmpty
      · obtain ⟨d, hd, hmaps⟩ := drainStep_growth env _ _ _ _ hdr
        have hdnil : d = [] := by
          have h0 : dst.preempted = [] := List.isEmpty_iff.mp hq
          rw [h0] at hd
          exact (List.append_eq_nil.mp hd.symm).2
        obtain ⟨ho1, ho2⟩ := hmaps hdnil
        exact ⟨Or.inr (by rw [hro, ho1]), Or.inr (by rw [hso, ho2])⟩
      · obtain ⟨_, _, _, hin1, hin2⟩ := hpne (eq_false_of_ne_true hq)
        exact ⟨Or.inl (by rw [hin1]), Or.inl (by rw [hin2])⟩
    · obtain ⟨_, ast, w', _, hout, _⟩ := schedule_prompt_inv h hp
      subst hout
      exact ⟨Or.inl rfl, Or.inl rfl⟩

/-- Witness for C1 at a concrete prompt tick. -/
theorem plan_swap_in_out_exclusive_witness :
    (_schedule envEx 0 stEx = .ok (outPromptEx, stPromptEx))
    ∧ ((outPromptEx.retrieval_blocks_to_swap_in = []
        ∨ outPromptEx.retrieval_blocks_to_swap_out = [])
       ∧ (outPromptEx.streaming_blocks_to_swap_in = []
          ∨ outPromptEx.streaming_blocks_to_swap_out = [])) :=
  ⟨by rfl,
   (plan_swap_in_out_exclusive envEx 0 stEx).2 outPromptEx stPromptEx (by rfl)⟩

/-! ### C2: prompt runs move no blocks and presuppose an empty swapped queue -/

/-- C2: whenever a tick returns a plan with `prompt_run = true`, all six
block-movement maps in that plan are empty and the swapped queue was empty
when the tick began. -/
theorem prompt_run_no_block_moves {σ : Type} (env : SchedEnv σ) (now : Nat)
    (s : SchedState σ) (out : SchedulerOutputs) (s' : SchedState σ)
    (h : _schedule env now s = .ok (out, s')) (hp : out.prompt_run = true) :
    out.retrieval_blocks_to_swap_in = []
    ∧ out.streaming_blocks_to_swap_in = []
    ∧ out.retrieval_blocks_to_swap_out = []
    ∧ out.streaming_blocks_to_swap_out = []
    ∧ out.retrieval_blocks_to_copy = []
    ∧ out.streaming_blocks_to_copy = []
    ∧ s.swapped = [] := by
  obtain ⟨hsw, ast, w', _, hout, _⟩ := schedule_prompt_inv h hp
  subst hout
  exact ⟨rfl, rfl, rfl, rfl, rfl, rfl, hsw⟩

/-- Witness for C2 at a concrete prompt tick. -/
theorem prompt_run_no_block_moves_witness :
    (_schedule envEx 0 stEx = .ok (outPromptEx, stPromptEx)
     ∧ outPromptEx.prompt_run = true)
    ∧ (outPromptEx.retrieval_blocks_to_swap_in = []
       ∧ outPromptEx.streaming_blocks_to_swap_in = []
       ∧ outPromptEx.retrieval_blocks_to_swap_out = []
       ∧ outPromptEx.streaming_blocks_to_swap_out = []
       ∧ outPromptEx.retrieval_blocks_to_copy = []
       ∧ outPromptEx.streaming_blocks_to_copy = []
       ∧ stEx.swapped = []) :=
  ⟨⟨by rfl, by decide⟩,
   prompt_run_no_block_moves envEx 0 stEx outPromptEx stPromptEx (by rfl) (by decide)⟩

def grEx : SequenceGroup := ⟨"d1", [⟨4, .RUNNING, 8⟩], 1⟩

def gsEx : SequenceGroup := ⟨"s1", [⟨5, .SWAPPED, 8⟩], 1⟩

def sdEx : SchedState Unit := ⟨[], [grEx], [gsEx], ()⟩

def outDecodeEx : SchedulerOutputs :=
  ⟨[⟨"d1", [⟨4, .RUNNING, 8⟩], 1⟩, ⟨"s1", [⟨5, .RUNNING, 8⟩], 1⟩],
   false, 2, [], [], [], [], [], [], []⟩

def stDecodeEx : SchedState Unit :=
  ⟨[], [⟨"d1", [⟨4, .RUNNING, 8⟩], 1⟩, ⟨"s1", [⟨5, .RUNNING, 8⟩], 1⟩], [], ()⟩

def gEx1R : SequenceGroup := ⟨"r1", [⟨1, .RUNNING, 6⟩], 1⟩

def astEx : AdmitSt Unit := ⟨(), [gEx1R], [], [gEx1R], 1, [6]⟩

/-! ### C3: the running-sequence cap is a tick invariant -/

/-- C3: if the policy's `sort_by_priority` returns permutations (as the
spec's PolicyIface requires) and
`Σ_{g∈running} get_max_num_running_seqs() ≤ max_num_seqs` holds before a
tick, it also holds for the running queue after the tick: both the
prompt-admission loop and the swap-in loop refuse a candidate group when
admitting it would exceed the cap, and the append-slot phase only ever
shrinks the running queue. -/
theorem running_cap_tick_invariant {σ : Type} (env : SchedEnv σ) (now : Nat)
    (s : SchedState σ) (out : SchedulerOutputs) (s' : SchedState σ)
    (hperm : ∀ t q, (env.sort_by_priority t q).Perm q)
    (hcap : totalMaxNumRunningSeqs s.running ≤ env.scheduler_config.max_num_seqs)
    (h : _schedule env now s = .ok (out, s')) :
    totalMaxNumRunningSeqs s'.running ≤ env.scheduler_config.max_num_seqs := by
  cases hp : out.prompt_run
  · obtain ⟨s0, hdec, hcase⟩ := schedule_decode_inv h hp
    have hs0 : totalMaxNumRunningSeqs s0.running ≤ env.scheduler_config.max_num_seqs := by
      rcases hcase with rfl | ⟨hsw, ast, w', ha, _, _, hs0eq⟩
      · exact hcap
      · have hinv := admitLoop_cap_invariant env s.waiting (admitInit s) ha rfl hcap
        rw [hs0eq]
        simp only []
        rw [← hinv.1]
        exact hinv.2
    obtain ⟨_, _, _, dst, hdr, _, _, _, hpe, hpne⟩ := decodePhase_inv hdec
    have hsorteq : totalMaxNumRunningSeqs (env.sort_by_priority now s0.running)
        = totalMaxNumRunningSeqs s0.running :=
      totalMaxNumRunningSeqs_perm (hperm now s0.running)
    have hdrb := drainStep_newRunning_bound env _ none _ _ hdr
    simp only [] at hdrb
    rw [hsorteq] at hdrb
    have hz : totalMaxNumRunningSeqs ([] : List SequenceGroup) = 0 := rfl
    have hdst : totalMaxNumRunningSeqs dst.newRunning
        ≤ env.scheduler_config.max_num_seqs := by omega
    by_cases hq : dst.preempted.isEmpty
    · obtain ⟨hrun, _, _, _, _⟩ := hpe hq
      obtain ⟨taken, hq1, hq2, hq3, _⟩ := swapInLoop_spec env
        (env.sort_by_priority now dst.swapped)
        ⟨dst.bm, [], [], dst.r_copy, dst.s_copy, dst.newRunning,
         totalMaxNumRunningSeqs dst.newRunning⟩
      have hcapL := swapInLoop_cap env (env.sort_by_priority now dst.swapped)
        ⟨dst.bm, [], [], dst.r_copy, dst.s_copy, dst.newRunning,
         totalMaxNumRunningSeqs dst.newRunning⟩ (by simp only []; exact hdst)
      rw [hrun, hq2]
      rw [totalMaxNumRunningSeqs_append, totalMaxNumRunningSeqs_map_setStatusAll]
      simp only [] at hq3 hcapL ⊢
      omega
    · obtain ⟨hrun, _⟩ := hpne (eq_false_of_ne_true hq)
      rw [hrun]
      exact hdst
  · obtain ⟨hsw, ast, w', ha, _, hstate⟩ := schedule_prompt_inv h hp
    have hinv := admitLoop_cap_invariant env s.waiting (admitInit s) ha rfl hcap
    rw [hstate]
    simp only []
    rw [← hinv.1]
    exact hinv.2

/-- Witness for C3 at a concrete decode tick with a swap-in. -/
theorem running_cap_tick_invariant_witness :
    totalMaxNumRunningSeqs sdEx.running ≤ envEx.scheduler_config.max_num_seqs
    ∧ totalMaxNumRunningSeqs stDecodeEx.running ≤ envEx.scheduler_config.max_num_seqs :=
  ⟨by decide,
   running_cap_tick_invariant envEx 0 sdEx outDecodeEx stDecodeEx
     (fun t q => List.Perm.refl q) (by decide) (by rfl)⟩

/-! ### C4: prompt-run token accounting -/

/-- C4: on a prompt-run tick, admission is gated by the summed prompt
lengths — the admitted `seq_lens` always satisfy
`sum ≤ max_num_batched_tokens` — while the reported `num_batched_tokens`
is the padded rectangle `len(seq_lens) × max(seq_lens)`, and it is `0`
when no prompt was admitted. -/
theorem prompt_run_token_accounting {σ : Type} (env : SchedEnv σ) (now : Nat)
    (s : SchedState σ) (out : SchedulerOutputs) (s' : SchedState σ)
    (ast : AdmitSt σ) (w' : List SequenceGroup)
    (h : _schedule env now s = .ok (out, s')) (hp : out.prompt_run = true)
    (ha : admitLoop env s.waiting (admitInit s) = .ok (ast, w')) :
    ast.seq_lens.sum ≤ env.scheduler_config.max_num_batched_tokens
    ∧ out.num_batched_tokens
        = (if ast.seq_lens.isEmpty then 0
           else ast.seq_lens.length * ast.seq_lens.foldl Nat.max 0)
    ∧ (out.scheduled_seq_groups = [] → out.num_batched_tokens = 0) := by
  obtain ⟨hsw, ast0, w0, ha0, hout, _⟩ := schedule_prompt_inv h hp
  rw [ha] at ha0
  injection ha0 with ha1
  injection ha1 with ha2 ha3
  subst ha2
  subst ha3
  refine ⟨?_, ?_, ?_⟩
  · exact admitLoop_budget_invariant env s.waiting (admitInit s) ha (Nat.zero_le _)
  · rw [hout]
  · intro hempty
    obtain ⟨d, dl, di, h1, h2, h3, h4, h5⟩ := admitLoop_growth env s.waiting (admitInit s) ha
    have hsched : ast.scheduled = d := by simpa [admitInit] using h1
    have hlens : ast.seq_lens = dl := by simpa [admitInit] using h3
    have hd : d = [] := by
      rw [hout] at hempty
      simp only [] at hempty
      rw [← hsched]
      exact hempty
    have hdl : dl = [] := List.length_eq_zero.mp (by rw [h5, hd]; rfl)
    rw [hout]
    simp only []
    rw [hlens, hdl]
    rfl

/-- Witness for C4 at a concrete prompt tick (one admitted 6-token prompt,
budget 10). -/
theorem prompt_run_token_accounting_witness :
    astEx.seq_lens.sum ≤ envEx.scheduler_config.max_num_batched_tokens
    ∧ outPromptEx.num_batched_tokens
        = (if astEx.seq_lens.isEmpty then 0
           else astEx.seq_lens.length * astEx.seq_lens.foldl Nat.max 0)
    ∧ (outPromptEx.scheduled_seq_groups = [] → outPromptEx.num_batched_tokens = 0) :=
  prompt_run_token_accounting envEx 0 stEx outPromptEx stPromptEx astEx [gEx2, gEx3]
    (by rfl) (by decide) (by rfl)

def unitBMNoAppend : BlockSpaceManagerIface Unit :=
  { unitBM with can_append_slot := fun _ _ => false }

def envNA : SchedEnv Unit := ⟨cfgEx, true, none, unitBMNoAppend, fun _ q => q⟩

def sdNAEx : SchedState Unit := ⟨[], [grEx], [gsEx], ()⟩

def grExW : SequenceGroup := ⟨"d1", [⟨4, .WAITING, 8⟩], 1⟩

def dstNAEx : DrainSt Unit := ⟨(), [grExW], [gsEx], [], [], [], [], [], [grExW]⟩

def outNAEx : SchedulerOutputs := ⟨[], false, 0, [], [], [], [], [], [], []⟩

def stNAEx : SchedState Unit := ⟨[grExW], [], [gsEx], ()⟩

/-! ### C6: the swap-in phase of a decode tick -/

/-- C6: in a decode tick, if any group was preempted during the append-slot
phase then no group moves from swapped to running and both swap-in maps of
the plan are empty; if none was preempted, groups are swapped in from the
front of the priority-sorted swapped queue — each appended to the back of
running with its `SWAPPED` sequences flipped to `RUNNING` — until the queue
empties, `can_swap_in` fails for the front group, or admitting it would
exceed `max_num_seqs`. -/
theorem decode_swap_in_policy {σ : Type} (env : SchedEnv σ) (now : Nat)
    (s : SchedState σ) (out : SchedulerOutputs) (s' : SchedState σ) (dst : DrainSt σ)
    (h : decodePhase env now s [] [] [] [] [] [] = .ok (out, s'))
    (hdr : drainStep env (2 * (env.sort_by_priority now s.running).length + 2) none
        (env.sort_by_priority now s.running)
        ⟨s.bm, s.waiting, s.swapped, [], [], [], [], [], []⟩ = .ok dst) :
    (dst.preempted ≠ [] →
       out.retrieval_blocks_to_swap_in = []
       ∧ out.streaming_blocks_to_swap_in = []
       ∧ s'.running = dst.newRunning
       ∧ s'.swapped = env.sort_by_priority now dst.swapped)
    ∧ (dst.preempted = [] →
       ∃ taken rem, env.sort_by_priority now dst.swapped = taken ++ rem
         ∧ s'.swapped = rem
         ∧ s'.running = dst.newRunning
             ++ taken.map (fun g => setStatusAll g .SWAPPED .RUNNING)
         ∧ ∀ g2 t2, rem = g2 :: t2 →
             env.block_manager.can_swap_in s'.bm g2 = false
             ∨ totalMaxNumRunningSeqs s'.running + g2.max_num_running_seqs
                 > env.scheduler_config.max_num_seqs) := by
  obtain ⟨_, _, _, dst0, hdr0, _, _, _, hpe, hpne⟩ := decodePhase_inv h
  rw [hdr] at hdr0
  injection hdr0 with hdst
  subst hdst
  constructor
  · intro hq
    have hq2 : dst.preempted.isEmpty = false := by
      cases hbool : dst.preempted.isEmpty
      · rfl
      · exact absurd (List.isEmpty_iff.mp hbool) hq
    obtain ⟨hrun, hswp, hbm, hin1, hin2⟩ := hpne hq2
    exact ⟨hin1, hin2, hrun, hswp⟩
  · intro hq
    have hq2 : dst.preempted.isEmpty = true := by rw [hq]; rfl
    obtain ⟨hrun, hswp, hbm, hin1, hin2⟩ := hpe hq2
    obtain ⟨taken, ht1, ht2, ht3, ht4⟩ := swapInLoop_spec env
      (env.sort_by_priority now dst.swapped)
      ⟨dst.bm, [], [], dst.r_copy, dst.s_copy, dst.newRunning,
       totalMaxNumRunningSeqs dst.newRunning⟩
    have hruntotal : totalMaxNumRunningSeqs s'.running
        = (swapInLoop env (env.sort_by_priority now dst.swapped)
            ⟨dst.bm, [], [], dst.r_copy, dst.s_copy, dst.newRunning,
             totalMaxNumRunningSeqs dst.newRunning⟩).1.num_curr_seqs := by
      rw [hrun, ht2, totalMaxNumRunningSeqs_append,
        totalMaxNumRunningSeqs_map_setStatusAll, ht3]
    refine ⟨taken,
      (swapInLoop env (env.sort_by_priority now dst.swapped)
        ⟨dst.bm, [], [], dst.r_copy, dst.s_copy, dst.newRunning,
         totalMaxNumRunningSeqs dst.newRunning⟩).2, ht1, hswp, ?_, ?_⟩
    · rw [hrun, ht2]
    · intro g2 t2 hrem
      rcases ht4 g2 t2 hrem with hc | hc
      · left
        rw [hbm]
        exact hc
      · right
        rw [hruntotal]
        exact hc

/-- Witness for C6 at a concrete decode tick in which the only running
group is preempted, so the swap-in phase is skipped. -/
theorem decode_swap_in_policy_witness :
    outNAEx.retrieval_blocks_to_swap_in = []
    ∧ outNAEx.streaming_blocks_to_swap_in = []
    ∧ stNAEx.running = dstNAEx.newRunning
    ∧ stNAEx.swapped = envNA.sort_by_priority 0 dstNAEx.swapped :=
  (decode_swap_in_policy envNA 0 sdNAEx outNAEx stNAEx dstNAEx (by rfl) (by rfl)).1
    (by decide)

/-! ### C8: the prompt-limit gate -/

/-- C8 (amended): in the prompt-admission mode, a group that reaches the
front of the waiting queue whose single waiting sequence is strictly longer
than `prompt_limit` has its waiting sequences set to `FINISHED_IGNORED`, is
popped, and lands in the tick's `ignored_seq_groups`; a front group whose
prompt length is at most `prompt_limit` (in particular, exactly equal) is
not rejected by this check — with the remaining admission conditions met it
is admitted and appears in `scheduled`. -/
theorem prompt_limit_front_gate {σ : Type} (env : SchedEnv σ) (g : SequenceGroup)
    (rest : List SequenceGroup) (st : AdmitSt σ) (ws : Sequence)
    (hws : g.get_seqs .WAITING = [ws]) :
    (ws.len > env.prompt_limit →
      admitLoop env (g :: rest) st
        = admitLoop env rest
            { st with ignored := st.ignored ++ [setStatusAll g .WAITING .FINISHED_IGNORED] }
      ∧ (setStatusAll g .WAITING .FINISHED_IGNORED).get_seqs .WAITING = []
      ∧ (∀ sq ∈ g.get_seqs .WAITING,
          { sq with status := SequenceStatus.FINISHED_IGNORED }
            ∈ (setStatusAll g .WAITING .FINISHED_IGNORED).seqs)
      ∧ ∀ ast w', admitLoop env (g :: rest) st = .ok (ast, w') →
          setStatusAll g .WAITING .FINISHED_IGNORED ∈ ast.ignored)
    ∧ (ws.len ≤ env.prompt_limit →
       env.block_manager.can_allocate st.bm g env.ifb_mode env.init_num_blocks = .OK →
       st.seq_lens.sum + ws.len ≤ env.scheduler_config.max_num_batched_tokens →
       st.num_curr_seqs + g.max_num_running_seqs ≤ env.scheduler_config.max_num_seqs →
       ∀ ast w', admitLoop env (g :: rest) st = .ok (ast, w') →
         setStatusAll g .WAITING .RUNNING ∈ ast.scheduled) := by
  constructor
  · intro hlen
    have hstep : admitLoop env (g :: rest) st
        = admitLoop env rest
            { st with ignored := st.ignored ++ [setStatusAll g .WAITING .FINISHED_IGNORED] } := by
      rw [admitLoop, hws]
      simp only [if_pos hlen]
    refine ⟨hstep, ?_, ?_, ?_⟩
    · simp only [setStatusAll, SequenceGroup.get_seqs, List.filter_eq_nil_iff, List.mem_map]
      rintro s ⟨t, ht, rfl⟩
      by_cases hw : t.status == SequenceStatus.WAITING <;> simp [hw]
    · intro sq hsq
      rw [SequenceGroup.get_seqs, List.mem_filter] at hsq
      simp only [setStatusAll, List.mem_map]
      exact ⟨sq, hsq.1, by simp [hsq.2]⟩
    · intro ast w' h
      rw [hstep] at h
      obtain ⟨d, dl, di, h1, h2, h3, h4, h5⟩ := admitLoop_growth env rest _ h
      rw [h4]
      simp
  · intro hle hcan hbud hcap ast w' h
    rw [admitLoop, hws] at h
    simp only [] at h
    rw [if_neg (by omega : ¬ ws.len > env.prompt_limit)] at h
    simp only [hcan] at h
    rw [if_neg (by rw [List.sum_append]; simp; omega :
        ¬ (st.seq_lens ++ [ws.len]).sum > env.scheduler_config.max_num_batched_tokens)] at h
    rw [if_neg (by omega :
        ¬ st.num_curr_seqs + g.max_num_running_seqs > env.scheduler_config.max_num_seqs)] at h
    rcases hal : _allocate env st.bm g with ⟨bm2, g2⟩
    rw [hal] at h
    simp only [] at h
    have hg2 : g2 = setStatusAll g .WAITING .RUNNING := by
      have hh : g2 = (_allocate env st.bm g).2 := by rw [hal]
      rw [hh]
      rfl
    obtain ⟨d, dl, di, h1, h2, h3, h4, h5⟩ := admitLoop_growth env rest _ h
    rw [h1]
    simp only []
    rw [hg2] at *
    simp

/-- Witness for C8's amended statement: a 11-token front prompt against
`prompt_limit = 10` takes the ignore step. -/
theorem prompt_limit_front_gate_witness :
    (setStatusAll gEx3 .WAITING .FINISHED_IGNORED).get_seqs .WAITING = []
    ∧ admitLoop envEx [gEx3] (admitInit (⟨[gEx3], [], [], ()⟩ : SchedState Unit))
        = admitLoop envEx []
            { admitInit (⟨[gEx3], [], [], ()⟩ : SchedState Unit) with
                ignored := (admitInit (⟨[gEx3], [], [], ()⟩ : SchedState Unit)).ignored
                  ++ [setStatusAll gEx3 .WAITING .FINISHED_IGNORED] } := by
  have T := (prompt_limit_front_gate envEx gEx3 []
      (admitInit (⟨[gEx3], [], [], ()⟩ : SchedState Unit)) ⟨3, .WAITING, 11⟩
      (by decide)).1 (by decide)
  exact ⟨T.2.1, T.1⟩

/-- Counterexample to C8 as frozen: a prompt-run tick (the budget break
fires at the second group) on which the over-long third waiting group is
neither ignored nor touched — it stays in `waiting` with status `WAITING`
and `ignored_seq_groups` is empty. -/
theorem prompt_limit_not_global_cex :
    _schedule envEx 0 stEx = .ok (outPromptEx, stPromptEx)
    ∧ outPromptEx.prompt_run = true
    ∧ gEx3 ∈ stPromptEx.waiting
    ∧ gEx3.get_seqs .WAITING = [⟨3, .WAITING, 11⟩]
    ∧ 11 > envEx.prompt_limit
    ∧ outPromptEx.ignored_seq_groups = []
    ∧ gEx3.seqs = [⟨3, .WAITING, 11⟩] :=
  ⟨by rfl, by decide, by decide, by decide, by decide, by decide, by decide⟩

end OmniServe
